import Mathlib

/-!
gopcua: the Aes256-Sha256-RsaPss security policy and the CreateSessionResponse codec.

Namespace `Securitypolicy` is a shallow embedding of
`securitypolicy/policyAes256Sha256RsaPss.go`.
The two constructors of the file fill an `EncryptionAlgorithm` with numbers,
URIs and four closures.  A closure is embedded as the call that builds it: the
name of the helper and the arguments it captures (`encryptRsaOAEP(crypto.SHA1,
remoteKey)` becomes `EncryptFn.encryptRsaOAEP Hash.SHA1 remoteKey`).  Pointers
that may be nil are `Option`s, and a nil dereference is the result `panic`.

Helpers of the package whose bodies are in other files are either parameters
(`keySize`, `minPaddingAES`, the primitives of the Go standard library) or are
modelled from the specification, and say so in their doc comment.

Namespace `Services` holds the binary codec of a CreateSessionResponse.  Of package
`services` only `create-session-response_test.go` is at hand: the codec is modelled from
the specification, and the structured value and the bytes of the test fix what the
specification leaves open.  The model writes the structured value of the test as the bytes
of the test and reads them back (`encode_caseStructured`, `decode_caseSerialized`).
Mask bytes are fields of the model and are read and written as they are, so the readers
fail on the errors the specification names and on nothing else.  DiagnosticInfo, which the
specification names without a field list, has the fields and bits of IEC 62541-6.
-/

set_option maxRecDepth 8000

namespace Securitypolicy

/-! ## Data model -/

/-- A Go byte slice. -/
abbrev Bytes := List (Fin 256)

/-- The two values of `crypto.Hash` the file uses. -/
inductive Hash
  | SHA1
  | SHA256
  deriving DecidableEq, Repr

/-- The digest length in bytes, `crypto.Hash.Size` of the Go standard library. -/
def Hash.Size : Hash → Nat
  | .SHA1 => 20
  | .SHA256 => 32

/-- An `rsa.PublicKey`: modulus and public exponent. -/
structure PublicKey where
  N : Nat
  E : Nat
  deriving DecidableEq, Repr

/-- An `rsa.PrivateKey`: the embedded public key and the private exponent. -/
structure PrivateKey where
  PublicKey : PublicKey
  D : Nat
  deriving DecidableEq, Repr

/-- The closure stored in `EncryptionAlgorithm.encrypt`, as the call that builds it. -/
inductive EncryptFn
  | encryptAES (keyBits : Nat) (iv : Bytes) (key : Bytes)
  | encryptRsaOAEP (hash : Hash) (pubKey : Option PublicKey)
  deriving DecidableEq, Repr

/-- The closure stored in `EncryptionAlgorithm.decrypt`, as the call that builds it. -/
inductive DecryptFn
  | decryptAES (keyBits : Nat) (iv : Bytes) (key : Bytes)
  | decryptRsaOAEP (hash : Hash) (privKey : Option PrivateKey)
  deriving DecidableEq, Repr

/-- The closure stored in `EncryptionAlgorithm.signature`, as the call that builds it. -/
inductive SignFn
  | computeHmac (hash : Hash) (secret : Bytes)
  | signRsaPss (hash : Hash) (privKey : Option PrivateKey)
  deriving DecidableEq, Repr

/-- The closure stored in `EncryptionAlgorithm.verifySignature`, as the call that builds it. -/
inductive VerifyFn
  | verifyHmac (hash : Hash) (secret : Bytes)
  | verifyRsaPss (hash : Hash) (pubKey : Option PublicKey)
  deriving DecidableEq, Repr

/-- The algorithm bundle the constructors fill, field by field as they assign it. -/
structure EncryptionAlgorithm where
  blockSize : Nat
  minPadding : Nat
  encrypt : EncryptFn
  decrypt : DecryptFn
  signature : SignFn
  verifySignature : VerifyFn
  signatureLength : Nat
  encryptionURI : String
  signatureURI : String
  deriving DecidableEq, Repr

/-- What a constructor call ends in: `(e, nil)`, `(nil, errors.New(msg))`, or a run-time panic. -/
inductive Outcome
  | bundle (e : EncryptionAlgorithm)
  | error (msg : String)
  | panic
  deriving DecidableEq, Repr

/-! ## Helpers of the package that live in other files -/

/-- Modelled from the spec: `minPaddingRsaOAEP` is called by the constructor but defined in
another file of the package; the spec gives `minPadding = 2·hashLen + 2` for RSA-OAEP. -/
def minPaddingRsaOAEP (hash : Hash) : Nat :=
  2 * hash.Size + 2

/-- Number of base-256 digits of `n`, by recursion on `fuel`. -/
def byteLen : Nat → Nat → Nat
  | 0, _ => 0
  | fuel + 1, n => if n = 0 then 0 else 1 + byteLen fuel (n / 256)

/-- Modelled from the spec: a stand-in for the absent `keySize`, used only to evaluate the
constructor on concrete keys; the spec calls it the RSA modulus size in bytes. -/
def modulusBytes (key : PublicKey) : Nat :=
  byteLen key.N key.N

/-! ## `newAes256Sha256RsaPssAsymmetric` -/

/-- The constant `minAsymmetricKeyLength` of the constructor (2048 bits). -/
def minAsymmetricKeyLength : Nat := 256

/-- The constant `maxAsymmetricKeyLength` of the constructor (4096 bits). -/
def maxAsymmetricKeyLength : Nat := 512

/-- The test both guards apply to a key size: `size < min || size > max`. -/
def outOfRange (size : Nat) : Bool :=
  decide (size < minAsymmetricKeyLength) || decide (size > maxAsymmetricKeyLength)

/-- The text `fmt.Sprintf` builds for a rejected key; `side` is "local" or "remote". -/
def keySizeMessage (side : String) (size : Nat) : String :=
  side ++ " key size should be " ++ toString minAsymmetricKeyLength ++ "-"
    ++ toString maxAsymmetricKeyLength ++ " bytes, got " ++ toString size ++ " bytes"

/-- The constructor `newAes256Sha256RsaPssAsymmetric(localKey, remoteKey)`.
`keySize` is the package helper of that name, taken as a parameter on non-nil keys; through
a nil key it reads a nil pointer: `keySize(remoteKey)` on line 102 and
`&localKey.PublicKey` on line 108 are the two places that end in `panic`. -/
def newAes256Sha256RsaPssAsymmetric (keySize : PublicKey → Nat)
    (localKey : Option PrivateKey) (remoteKey : Option PublicKey) : Outcome :=
  -- lines 100-112: fill the bundle
  let fill : Outcome :=
    match remoteKey with
    | none => .panic
    | some rk =>
      match localKey with
      | none => .panic
      | some lk =>
        .bundle
          { blockSize := keySize rk
            minPadding := minPaddingRsaOAEP .SHA1
            encrypt := .encryptRsaOAEP .SHA1 remoteKey
            decrypt := .decryptRsaOAEP .SHA1 localKey
            signature := .signRsaPss .SHA256 localKey
            verifySignature := .verifyRsaPss .SHA256 remoteKey
            signatureLength := keySize lk.PublicKey
            encryptionURI := "http://opcfoundation.org/UA/security/rsa-oaep-sha2-256"
            signatureURI := "http://opcfoundation.org/UA/security/rsa-pss-sha2-256" }
  -- lines 95-98: the guard on the remote key
  let checkRemote : Outcome :=
    match remoteKey with
    | some rk =>
      if outOfRange (keySize rk) then .error (keySizeMessage "remote" (keySize rk)) else fill
    | none => fill
  -- lines 90-93: the guard on the local key
  match localKey with
  | some lk =>
    if outOfRange (keySize lk.PublicKey) then
      .error (keySizeMessage "local" (keySize lk.PublicKey))
    else checkRemote
  | none => checkRemote

/-! ## `newAes256Sha256RsaPssSymmetric` -/

/-- The primitives of the Go standard library the helpers of the package wrap: `crypto/hmac`
and the RSA-PSS signing and verification of `crypto/rsa`. -/
structure Crypto where
  hmac : Hash → Bytes → Bytes → Bytes
  signPSS : Hash → Option PrivateKey → Bytes → Except String Bytes
  verifyPSS : Hash → Option PublicKey → Bytes → Bytes → Except String Unit

/-- The constant `aes.BlockSize` of the Go standard library. -/
def aesBlockSize : Nat := 16

/-- Modelled from the spec: `blockSizeAES` is defined in another file of the package; the
spec gives AES-CBC the block size 16. -/
def blockSizeAES : Nat := 16

/-- Modelled from the spec: `computeHmac` is defined in another file of the package; the
closure it returns maps the data to its HMAC under `secret`. -/
def computeHmac (c : Crypto) (h : Hash) (secret : Bytes) : Bytes → Bytes :=
  fun input => c.hmac h secret input

/-- Modelled from the spec: `verifyHmac` is defined in another file of the package; the
closure it returns recomputes the HMAC of the message under `secret` and accepts exactly the
signature that equals it, a mismatch being `SignatureInvalid`. -/
def verifyHmac (c : Crypto) (h : Hash) (secret : Bytes) : Bytes → Bytes → Except String Unit :=
  fun message signature =>
    if c.hmac h secret message = signature then .ok () else .error "SignatureInvalid"

/-- The derived key bundle of one direction. -/
structure DerivedKeys where
  signing : Bytes
  encryption : Bytes
  iv : Bytes
  deriving DecidableEq, Repr

/-- The first `n` blocks `HMAC(secret, A(i) || seed)` of P_HASH, `a` being `A(i-1)`. -/
def pHashBlocks (hmac : Bytes → Bytes) (seed : Bytes) : Nat → Bytes → Bytes
  | 0, _ => []
  | n + 1, a => hmac (hmac a ++ seed) ++ pHashBlocks hmac seed n (hmac a)

/-- Modelled from the spec: `P_HASH(secret, seed, length)`, with `A(0) = seed`,
`A(i) = HMAC(secret, A(i-1))`, the blocks `HMAC(secret, A(i) || seed)` for `i ≥ 1`
concatenated and truncated to `length`; `length` blocks are enough whenever a block is not
empty. -/
def pHash (hmac : Bytes → Bytes) (seed : Bytes) (length : Nat) : Bytes :=
  (pHashBlocks hmac seed length seed).take length

/-- Modelled from the spec: `generateKeys` is defined in another file of the package; it
yields `signing ‖ encryption ‖ iv`, the P_HASH output split by length. -/
def generateKeys (hmac : Bytes → Bytes) (seed : Bytes)
    (signingLength encryptingLength encryptingBlockSize : Nat) : DerivedKeys :=
  let p := pHash hmac seed (signingLength + encryptingLength + encryptingBlockSize)
  { signing := p.take signingLength
    encryption := (p.drop signingLength).take encryptingLength
    iv := (p.drop (signingLength + encryptingLength)).take encryptingBlockSize }

/-- The constructor `newAes256Sha256RsaPssSymmetric(localNonce, remoteNonce)`.
`minPaddingAES` is the package helper of that name, defined in another file and taken as a
parameter. -/
def newAes256Sha256RsaPssSymmetric (c : Crypto) (minPaddingAES : Nat)
    (localNonce remoteNonce : Bytes) : Outcome :=
  let signatureKeyLength := 32
  let encryptionKeyLength := 32
  let encryptionBlockSize := blockSizeAES
  let localKeys := generateKeys (computeHmac c .SHA256 localNonce) remoteNonce
    signatureKeyLength encryptionKeyLength encryptionBlockSize
  let remoteKeys := generateKeys (computeHmac c .SHA256 remoteNonce) localNonce
    signatureKeyLength encryptionKeyLength encryptionBlockSize
  .bundle
    { blockSize := aesBlockSize
      minPadding := minPaddingAES
      encrypt := .encryptAES 256 remoteKeys.iv remoteKeys.encryption
      decrypt := .decryptAES 256 localKeys.iv localKeys.encryption
      signature := .computeHmac .SHA256 remoteKeys.signing
      verifySignature := .verifyHmac .SHA256 localKeys.signing
      signatureLength := 256 / 8
      encryptionURI := "http://opcfoundation.org/UA/security/rsa-oaep-sha2-256"
      signatureURI := "http://www.w3.org/2000/09/xmldsig#hmac-sha256" }

/-! ## Calling the stored closures -/

/-- A call `e.signature(data)` of a stored signing closure. -/
def SignFn.call (c : Crypto) : SignFn → Bytes → Except String Bytes
  | .computeHmac h secret, data => .ok (Securitypolicy.computeHmac c h secret data)
  | .signRsaPss h privKey, data => c.signPSS h privKey data

/-- A call `e.verifySignature(data, sig)` of a stored verifying closure. -/
def VerifyFn.call (c : Crypto) : VerifyFn → Bytes → Bytes → Except String Unit
  | .verifyHmac h secret, data, sig => Securitypolicy.verifyHmac c h secret data sig
  | .verifyRsaPss h pubKey, data, sig => c.verifyPSS h pubKey data sig

/-! ## Concrete inputs -/

/-- A toy keyed digest standing for `crypto/hmac`: 32 bytes (20 for SHA-1) that depend on
the key, the message and the position. -/
def toyHmac (h : Hash) (key msg : Bytes) : Bytes :=
  (List.range h.Size).map fun i =>
    Fin.ofNat (i + 3 * (key.map Fin.val).sum + 7 * (msg.map Fin.val).sum + msg.length)

/-- Standard-library primitives for evaluation: the toy digest, and RSA-PSS left out. -/
def toyCrypto : Crypto :=
  { hmac := toyHmac
    signPSS := fun _ _ _ => .error "rsa: not modelled"
    verifyPSS := fun _ _ _ _ => .error "rsa: not modelled" }

/-- A 32-byte nonce of zeros. -/
def nonceZeros : Bytes := List.replicate 32 0

/-- A 32-byte nonce of ones. -/
def nonceOnes : Bytes := List.replicate 32 1

/-- A 1024-bit public key. -/
def pub1024 : PublicKey := { N := 256 ^ 128 - 1, E := 65537 }

/-- A 2048-bit public key. -/
def pub2048 : PublicKey := { N := 256 ^ 256 - 1, E := 65537 }

/-- A 4096-bit public key. -/
def pub4096 : PublicKey := { N := 256 ^ 256 * 256 ^ 256 - 1, E := 65537 }

/-- A 1024-bit private key. -/
def priv1024 : PrivateKey := { PublicKey := { N := 256 ^ 128 - 3, E := 65537 }, D := 3 }

/-- A 2048-bit private key. -/
def priv2048 : PrivateKey := { PublicKey := { N := 256 ^ 256 - 3, E := 65537 }, D := 3 }

/-- A 4096-bit private key. -/
def priv4096 : PrivateKey :=
  { PublicKey := { N := 256 ^ 256 * 256 ^ 256 - 3, E := 65537 }, D := 3 }

end Securitypolicy

namespace Services

/-! ## Byte codec -/

/-- A Go byte slice. -/
abbrev Bytes := List (Fin 256)

/-- A decoder reads a value off the front of the input and returns what is left; `none` is a
decoding error. -/
abbrev Decoder (α : Type) := Bytes → Option (α × Bytes)

/-- Modelled from the spec: the writer of a fixed-width unsigned integer, `width` bytes of
`n % 256^width`, least significant byte first (all scalars are little-endian). -/
def putLE : Nat → Nat → Bytes
  | 0, _ => []
  | width + 1, n => Fin.ofNat n :: putLE width (n / 256)

/-- The number a little-endian byte string stands for. -/
def leValue : Bytes → Nat
  | [] => 0
  | b :: bs => b.val + 256 * leValue bs

/-- Modelled from the spec: the reader's step over `n` raw bytes; fewer than `n` bytes left is
the error `ShortRead`. -/
def readBytes (n : Nat) : Decoder Bytes := fun b =>
  if n ≤ b.length then some (b.take n, b.drop n) else none

/-- Modelled from the spec: the reader of a fixed-width little-endian unsigned integer. -/
def getLE (width : Nat) : Decoder Nat := fun b =>
  match readBytes width b with
  | some (x, rest) => some (leValue x, rest)
  | none => none

/-- The length prefix `-1` of a null string, byte string or array, as the `uint32` with the same
bytes, `FF FF FF FF`. -/
def nullLength : Nat := 4294967295

/-- A byte string of the data model: null (`none`) or a sequence of bytes. -/
abbrev ByteString := Option Bytes

/-- A string of the data model: null (`none`) or the bytes of a UTF-8 text. -/
abbrev UAString := Option Bytes

/-- Modelled from the spec: a byte string is written as its `int32` length and then its bytes;
the null byte string as the length `-1`, which differs from the length `0` of an empty one. -/
def encodeByteString : ByteString → Bytes
  | none => putLE 4 nullLength
  | some v => putLE 4 v.length ++ v

/-- Modelled from the spec: the reader of a byte string; a negative length other than `-1` is
the error `BadLength`. -/
def decodeByteString : Decoder ByteString := fun b =>
  match getLE 4 b with
  | none => none
  | some (n, rest) =>
    if n = nullLength then some (none, rest)
    else if 2147483648 ≤ n then none
    else
      match readBytes n rest with
      | some (v, rest) => some (some v, rest)
      | none => none

/-- Modelled from the spec: the encoded size of a byte string or string, the four bytes of the
`int32` length and then the raw bytes, none for the null one. -/
def lenByteString : ByteString → Nat
  | none => 4
  | some v => 4 + v.length

/-- One step of the UTF-8 automaton. The state is the number of continuation bytes still
due and the range the next one must lie in (Unicode, table 3-7: no overlong forms, no
surrogates, nothing above U+10FFFF). -/
def utf8Step (s : Nat × Nat × Nat) (b : Fin 256) : Option (Nat × Nat × Nat) :=
  match s with
  | (0, _, _) =>
    if b.val < 128 then some (0, 128, 191)
    else if 194 ≤ b.val ∧ b.val ≤ 223 then some (1, 128, 191)
    else if b.val = 224 then some (2, 160, 191)
    else if b.val = 237 then some (2, 128, 159)
    else if 225 ≤ b.val ∧ b.val ≤ 239 then some (2, 128, 191)
    else if b.val = 240 then some (3, 144, 191)
    else if 241 ≤ b.val ∧ b.val ≤ 243 then some (3, 128, 191)
    else if b.val = 244 then some (3, 128, 143)
    else none
  | (need + 1, lo, hi) =>
    if lo ≤ b.val ∧ b.val ≤ hi then some (need, 128, 191) else none

/-- Whether the bytes are well-formed UTF-8. -/
def validUTF8 (bs : Bytes) : Bool :=
  match bs.foldlM utf8Step (0, 128, 191) with
  | some (0, _, _) => true
  | _ => false

/-- Whether a string of the data model holds UTF-8 text (the null string does). -/
def validString : UAString → Bool
  | none => true
  | some v => validUTF8 v

/-- Modelled from the spec: a string is written like a byte string, `int32` length and raw
bytes, `-1` for the null string. -/
def encodeString (s : UAString) : Bytes :=
  encodeByteString s

/-- Modelled from the spec: the reader of a string; bytes that are not UTF-8 are rejected
(`BadUtf8`). -/
def decodeString : Decoder UAString := fun b =>
  match decodeByteString b with
  | none => none
  | some (s, rest) => if validString s then some (s, rest) else none

/-- The encodings of the elements of a list, one after the other. -/
def encodeAll {α : Type} (enc : α → Bytes) : List α → Bytes
  | [] => []
  | x :: xs => enc x ++ encodeAll enc xs

/-- Reads `n` elements one after the other. -/
def decodeN {α : Type} (dec : Decoder α) : Nat → Decoder (List α)
  | 0, b => some ([], b)
  | n + 1, b =>
    match dec b with
    | none => none
    | some (x, rest) =>
      match decodeN dec n rest with
      | none => none
      | some (xs, rest) => some (x :: xs, rest)

/-- The sum of the encoded sizes of the elements of a list. -/
def lenAll {α : Type} (len : α → Nat) : List α → Nat
  | [] => 0
  | x :: xs => len x + lenAll len xs

/-- Modelled from the spec: an array is written as its `int32` count and then its elements;
the null array as the count `-1`. -/
def encodeArray {α : Type} (enc : α → Bytes) : Option (List α) → Bytes
  | none => putLE 4 nullLength
  | some xs => putLE 4 xs.length ++ encodeAll enc xs

/-- Modelled from the spec: the reader of an array; a negative count other than `-1` is the
error `BadLength`. -/
def decodeArray {α : Type} (dec : Decoder α) : Decoder (Option (List α)) := fun b =>
  match getLE 4 b with
  | none => none
  | some (n, rest) =>
    if n = nullLength then some (none, rest)
    else if 2147483648 ≤ n then none
    else
      match decodeN dec n rest with
      | some (xs, rest) => some (some xs, rest)
      | none => none

/-- Modelled from the spec: the encoded size of an array, the four bytes of the `int32` count and
then the elements, none for the null array. -/
def lenArray {α : Type} (len : α → Nat) : Option (List α) → Nat
  | none => 4
  | some xs => 4 + lenAll len xs

/-- Whether a byte string fits its `int32` length prefix. -/
def wfByteString : ByteString → Bool
  | none => true
  | some v => decide (v.length < 2147483648)

/-- Whether a string fits its length prefix and holds UTF-8 text. -/
def wfString (s : UAString) : Bool :=
  wfByteString s && validString s

/-- Whether an array fits its `int32` count and every element is a value of its type. -/
def wfArray {α : Type} (wf : α → Bool) : Option (List α) → Bool
  | none => true
  | some xs => decide (xs.length < 2147483648) && xs.all wf

/-! ## Structural encoder -/

/-- A GUID: `Data1` is a `uint32`, `Data2` and `Data3` are `uint16`, `Data4` is eight bytes. -/
structure GUID where
  Data1 : Nat
  Data2 : Nat
  Data3 : Nat
  Data4 : { l : Bytes // l.length = 8 }
  deriving DecidableEq, Repr

/-- Modelled from the spec: a GUID is 16 bytes, four-byte little-endian `Data1`, two-byte
little-endian `Data2` and `Data3`, then the eight bytes of `Data4` in order. -/
def encodeGUID (g : GUID) : Bytes :=
  putLE 4 g.Data1 ++ putLE 2 g.Data2 ++ putLE 2 g.Data3 ++ g.Data4.val

/-- Modelled from the spec: the reader of a GUID. -/
def decodeGUID : Decoder GUID := fun b =>
  match getLE 4 b with
  | none => none
  | some (d1, b) =>
    match getLE 2 b with
    | none => none
    | some (d2, b) =>
      match getLE 2 b with
      | none => none
      | some (d3, b) =>
        if h : 8 ≤ b.length then
          some ({ Data1 := d1, Data2 := d2, Data3 := d3,
                  Data4 := ⟨b.take 8, by simp [List.length_take, h]⟩ }, b.drop 8)
        else none

/-- Whether the three integers of a GUID fit their widths. -/
def wfGUID (g : GUID) : Bool :=
  decide (g.Data1 < 4294967296) && decide (g.Data2 < 65536) && decide (g.Data3 < 65536)

/-- The NodeId of the data model, a tagged variant: the constructor that built it fixes the
variant, and with it the widths of namespace and identifier. -/
inductive NodeID
  | TwoByte (id : Nat)
  | FourByte (ns : Nat) (id : Nat)
  | Numeric (ns : Nat) (id : Nat)
  | Str (ns : Nat) (id : UAString)
  | Guid (ns : Nat) (id : GUID)
  | Opaque (ns : Nat) (id : ByteString)
  deriving DecidableEq, Repr

/-- Modelled from the spec: the first byte names the variant (0 TwoByte, 1 FourByte,
2 Numeric, 3 String, 4 GUID, 5 Opaque), then come namespace and identifier. The variant
written is the one the value was built with, as the test's bytes for the SessionID
`NewNumericNodeID(0, 1)`, `02 00 00 01 00 00 00`, record; the writer does not switch to a more
compact variant. -/
def encodeNodeID : NodeID → Bytes
  | .TwoByte id => 0 :: putLE 1 id
  | .FourByte ns id => 1 :: (putLE 1 ns ++ putLE 2 id)
  | .Numeric ns id => 2 :: (putLE 2 ns ++ putLE 4 id)
  | .Str ns id => 3 :: (putLE 2 ns ++ encodeString id)
  | .Guid ns id => 4 :: (putLE 2 ns ++ encodeGUID id)
  | .Opaque ns id => 5 :: (putLE 2 ns ++ encodeByteString id)

/-- Modelled from the spec: the reader of a NodeId branches on the leading byte; a byte
other than 0..5 is the error `UnknownNodeIdVariant`. -/
def decodeNodeID : Decoder NodeID := fun b =>
  match b with
  | [] => none
  | tag :: b =>
    if tag.val = 0 then
      match getLE 1 b with
      | some (id, rest) => some (.TwoByte id, rest)
      | none => none
    else if tag.val = 1 then
      match getLE 1 b with
      | none => none
      | some (ns, b) =>
        match getLE 2 b with
        | some (id, rest) => some (.FourByte ns id, rest)
        | none => none
    else
      match getLE 2 b with
      | none => none
      | some (ns, b) =>
        if tag.val = 2 then
          match getLE 4 b with
          | some (id, rest) => some (.Numeric ns id, rest)
          | none => none
        else if tag.val = 3 then
          match decodeString b with
          | some (id, rest) => some (.Str ns id, rest)
          | none => none
        else if tag.val = 4 then
          match decodeGUID b with
          | some (id, rest) => some (.Guid ns id, rest)
          | none => none
        else if tag.val = 5 then
          match decodeByteString b with
          | some (id, rest) => some (.Opaque ns id, rest)
          | none => none
        else none

/-- Whether namespace and identifier of a NodeId fit the widths of its variant. -/
def wfNodeID : NodeID → Bool
  | .TwoByte id => decide (id < 256)
  | .FourByte ns id => decide (ns < 256) && decide (id < 65536)
  | .Numeric ns id => decide (ns < 65536) && decide (id < 4294967296)
  | .Str ns id => decide (ns < 65536) && wfString id
  | .Guid ns id => decide (ns < 65536) && wfGUID id
  | .Opaque ns id => decide (ns < 65536) && wfByteString id

/-- Modelled from the spec: the encoded size of a NodeId by variant: the variant byte, the
namespace (none, one byte or two) and the identifier (one, two or four bytes, a
length-prefixed body, or the 16 bytes of a GUID). -/
def lenNodeID : NodeID → Nat
  | .TwoByte _ => 2
  | .FourByte _ _ => 4
  | .Numeric _ _ => 7
  | .Str _ id => 3 + lenByteString id
  | .Guid _ _ => 19
  | .Opaque _ id => 3 + lenByteString id

/-- Whether the bit of value `bit` (a power of two) is set in a mask byte. -/
def hasBit (mask bit : Nat) : Bool :=
  mask / bit % 2 == 1

/-- Modelled from the spec: a presence mask gates an optional field, `so absent fields consume
zero body bytes`; the writer of such a field writes nothing when the field is absent. -/
def encodeOpt {α : Type} (enc : α → Bytes) : Option α → Bytes
  | none => []
  | some v => enc v

/-- Modelled from the spec: the reader of a field that a mask gates: the field when `present`,
nothing otherwise. -/
def decodeOpt {α : Type} (dec : Decoder α) (present : Bool) : Decoder (Option α) := fun b =>
  if present then
    match dec b with
    | some (v, rest) => some (some v, rest)
    | none => none
  else some (none, b)

/-- Whether a gated field, when present, is a value of its type. -/
def wfOpt {α : Type} (wf : α → Bool) : Option α → Bool
  | none => true
  | some v => wf v

/-- The encoded size of a gated field: zero when it is absent. -/
def lenOpt {α : Type} (len : α → Nat) : Option α → Nat
  | none => 0
  | some v => len v

/-- Whether a number fits a `uint32`. -/
def wfUint32 (n : Nat) : Bool :=
  decide (n < 4294967296)

/-- Whether a number fits an `int32`. -/
def wfInt32 (n : Int) : Bool :=
  decide (-2147483648 ≤ n) && decide (n < 2147483648)

/-- Modelled from the spec: the writer of an `int32`, four little-endian bytes, two's
complement. -/
def encodeInt32 (n : Int) : Bytes :=
  putLE 4 (n % 4294967296).toNat

/-- Modelled from the spec: the reader of an `int32`. -/
def decodeInt32 : Decoder Int := fun b =>
  match getLE 4 b with
  | none => none
  | some (n, rest) =>
    some (if n < 2147483648 then (n : Int) else (n : Int) - 4294967296, rest)

/-- An ExtensionObject; the AdditionalHeader of a header is one. The encoding mask is kept as
the byte it is; the body is there when the mask is 1 (a byte string) or 2 (an XML element). -/
structure ExtensionObject where
  TypeID : NodeID
  EncodingMask : Nat
  Body : Option ByteString
  deriving DecidableEq, Repr

/-- Whether an encoding mask announces a body: 1 is a byte string, 2 an XML element. -/
def hasBody (mask : Nat) : Bool :=
  mask == 1 || mask == 2

/-- Modelled from the spec: an ExtensionObject is `NodeId typeId, uint8 encoding-mask,
optional bytestring body`. -/
def encodeExtensionObject (e : ExtensionObject) : Bytes :=
  encodeNodeID e.TypeID ++ putLE 1 e.EncodingMask ++ encodeOpt encodeByteString e.Body

/-- Modelled from the spec: the reader of an ExtensionObject; it reads a body after the masks
1 and 2 and none after any other mask. -/
def decodeExtensionObject : Decoder ExtensionObject := fun b => do
  let (typeID, b) ← decodeNodeID b
  let (mask, b) ← getLE 1 b
  let (body, b) ← decodeOpt decodeByteString (hasBody mask) b
  some ({ TypeID := typeID, EncodingMask := mask, Body := body }, b)

/-- Whether the parts of an ExtensionObject are values of their types and the body is there
exactly when the mask announces it. -/
def wfExtensionObject (e : ExtensionObject) : Bool :=
  wfNodeID e.TypeID && decide (e.EncodingMask < 256) &&
    (e.Body.isSome == hasBody e.EncodingMask) && wfOpt wfByteString e.Body

/-- Modelled from the spec: the encoded size of an ExtensionObject, its NodeId, the mask byte
and the body if there is one. -/
def lenExtensionObject (e : ExtensionObject) : Nat :=
  lenNodeID e.TypeID + 1 + lenOpt lenByteString e.Body

/-- The fields of one level of a DiagnosticInfo, each there when its bit of the encoding mask
is set. -/
structure DiagnosticFields where
  EncodingMask : Nat
  SymbolicID : Option Int
  NamespaceURI : Option Int
  Locale : Option Int
  LocalizedText : Option Int
  AdditionalInfo : Option UAString
  InnerStatusCode : Option Nat
  deriving DecidableEq, Repr

/-- Modelled from the spec: the spec names DiagnosticInfo among the structures whose optional
fields a bit mask gates and gives no field list; the fields and the bits are those of
IEC 62541-6, the standard the encoding follows: 01 symbolic id, 02 namespace URI,
04 localized text, 08 locale (four `int32` indices into the string table), 10 additional info
(a string), 20 inner status code (a `uint32`), 40 an inner DiagnosticInfo. The test has the
one `NewNullDiagnosticInfo` builds, the mask byte 0. -/
inductive DiagnosticInfo
  | single (fields : DiagnosticFields)
  | withInner (fields : DiagnosticFields) (inner : DiagnosticInfo)
  deriving DecidableEq, Repr

/-- Modelled from the spec: the writer of one level of a DiagnosticInfo, the mask byte and
then the fields that are there, in the order of IEC 62541-6. -/
def encodeDiagnosticFields (f : DiagnosticFields) : Bytes :=
  putLE 1 f.EncodingMask ++ encodeOpt encodeInt32 f.SymbolicID ++
    encodeOpt encodeInt32 f.NamespaceURI ++ encodeOpt encodeInt32 f.Locale ++
    encodeOpt encodeInt32 f.LocalizedText ++ encodeOpt encodeString f.AdditionalInfo ++
    encodeOpt (putLE 4) f.InnerStatusCode

/-- Modelled from the spec: the writer of a DiagnosticInfo, its level and then the inner
DiagnosticInfo if there is one. -/
def encodeDiagnosticInfo : DiagnosticInfo → Bytes
  | .single f => encodeDiagnosticFields f
  | .withInner f inner => encodeDiagnosticFields f ++ encodeDiagnosticInfo inner

/-- Modelled from the spec: the reader of one level of a DiagnosticInfo, the mask byte and
then the fields whose bits are set. -/
def decodeDiagnosticFields : Decoder DiagnosticFields := fun b => do
  let (mask, b) ← getLE 1 b
  let (symbolicID, b) ← decodeOpt decodeInt32 (hasBit mask 1) b
  let (namespaceURI, b) ← decodeOpt decodeInt32 (hasBit mask 2) b
  let (locale, b) ← decodeOpt decodeInt32 (hasBit mask 8) b
  let (localizedText, b) ← decodeOpt decodeInt32 (hasBit mask 4) b
  let (additionalInfo, b) ← decodeOpt decodeString (hasBit mask 16) b
  let (innerStatusCode, b) ← decodeOpt (getLE 4) (hasBit mask 32) b
  some ({ EncodingMask := mask, SymbolicID := symbolicID, NamespaceURI := namespaceURI,
          Locale := locale, LocalizedText := localizedText, AdditionalInfo := additionalInfo,
          InnerStatusCode := innerStatusCode }, b)

/-- Modelled from the spec: the reader of a DiagnosticInfo with a bound on the levels it may
read. -/
def decodeDiagnosticLevels : Nat → Decoder DiagnosticInfo
  | 0, _ => none
  | fuel + 1, b =>
    match decodeDiagnosticFields b with
    | none => none
    | some (f, rest) =>
      if hasBit f.EncodingMask 64 then
        match decodeDiagnosticLevels fuel rest with
        | some (inner, rest) => some (.withInner f inner, rest)
        | none => none
      else some (.single f, rest)

/-- Modelled from the spec: the reader of a DiagnosticInfo. A level takes at least its mask
byte, so the number of bytes bounds the number of levels and the bound never cuts a reading
short (`decodeDiagnosticLevels_fuel`). -/
def decodeDiagnosticInfo : Decoder DiagnosticInfo := fun b =>
  decodeDiagnosticLevels b.length b

/-- Whether the fields of one level are values of their types and each is there exactly when
its bit is set. -/
def wfDiagnosticFields (f : DiagnosticFields) : Bool :=
  decide (f.EncodingMask < 256) &&
    (f.SymbolicID.isSome == hasBit f.EncodingMask 1) &&
    (f.NamespaceURI.isSome == hasBit f.EncodingMask 2) &&
    (f.Locale.isSome == hasBit f.EncodingMask 8) &&
    (f.LocalizedText.isSome == hasBit f.EncodingMask 4) &&
    (f.AdditionalInfo.isSome == hasBit f.EncodingMask 16) &&
    (f.InnerStatusCode.isSome == hasBit f.EncodingMask 32) &&
    wfOpt wfInt32 f.SymbolicID && wfOpt wfInt32 f.NamespaceURI && wfOpt wfInt32 f.Locale &&
    wfOpt wfInt32 f.LocalizedText && wfOpt wfString f.AdditionalInfo &&
    wfOpt wfUint32 f.InnerStatusCode

/-- Whether a DiagnosticInfo is well-typed at every level, with an inner DiagnosticInfo
exactly where the bit 40 is set. -/
def wfDiagnosticInfo : DiagnosticInfo → Bool
  | .single f => wfDiagnosticFields f && !hasBit f.EncodingMask 64
  | .withInner f inner => wfDiagnosticFields f && hasBit f.EncodingMask 64 &&
      wfDiagnosticInfo inner

/-- Modelled from the spec: the encoded size of one level of a DiagnosticInfo, the mask byte,
four bytes for each integer that is there and the size of the additional info. -/
def lenDiagnosticFields (f : DiagnosticFields) : Nat :=
  1 + lenOpt (fun _ => 4) f.SymbolicID + lenOpt (fun _ => 4) f.NamespaceURI +
    lenOpt (fun _ => 4) f.Locale + lenOpt (fun _ => 4) f.LocalizedText +
    lenOpt lenByteString f.AdditionalInfo + lenOpt (fun _ => 4) f.InnerStatusCode

/-- Modelled from the spec: the encoded size of a DiagnosticInfo, the sizes of its levels. -/
def lenDiagnosticInfo : DiagnosticInfo → Nat
  | .single f => lenDiagnosticFields f
  | .withInner f inner => lenDiagnosticFields f + lenDiagnosticInfo inner

/-- A LocalizedText: the presence mask as the byte it is, and the two strings, each there
when its bit is set: 01 the locale, 02 the text (the test's ApplicationName, a text without
locale, has the mask 02). -/
structure LocalizedText where
  EncodingMask : Nat
  Locale : Option UAString
  Text : Option UAString
  deriving DecidableEq, Repr

/-- Modelled from the spec: a LocalizedText is a presence mask byte and then the strings
that are present, locale first; an absent string takes no bytes. -/
def encodeLocalizedText (l : LocalizedText) : Bytes :=
  putLE 1 l.EncodingMask ++ encodeOpt encodeString l.Locale ++ encodeOpt encodeString l.Text

/-- Modelled from the spec: the reader of a LocalizedText: the mask byte, then the strings
whose bits are set. -/
def decodeLocalizedText : Decoder LocalizedText := fun b => do
  let (mask, b) ← getLE 1 b
  let (locale, b) ← decodeOpt decodeString (hasBit mask 1) b
  let (text, b) ← decodeOpt decodeString (hasBit mask 2) b
  some ({ EncodingMask := mask, Locale := locale, Text := text }, b)

/-- Whether the strings of a LocalizedText are values of their type and each is there exactly
when its bit is set. -/
def wfLocalizedText (l : LocalizedText) : Bool :=
  decide (l.EncodingMask < 256) && (l.Locale.isSome == hasBit l.EncodingMask 1) &&
    (l.Text.isSome == hasBit l.EncodingMask 2) && wfOpt wfString l.Locale &&
    wfOpt wfString l.Text

/-- Modelled from the spec: the encoded size of a LocalizedText, the mask byte and the
strings that are present. -/
def lenLocalizedText (l : LocalizedText) : Nat :=
  1 + lenOpt lenByteString l.Locale + lenOpt lenByteString l.Text

/-! ## Timestamps -/

/-- A Go `time.Time` as an instant: whole seconds since 1970-01-01T00:00:00Z and the
nanoseconds within the second. -/
structure Time where
  sec : Int
  nsec : Nat
  deriving DecidableEq, Repr

/-- Days from 1970-01-01 to the given day of the proleptic Gregorian calendar. -/
def daysFromCivil (year month day : Nat) : Int :=
  let y := if month ≤ 2 then year - 1 else year
  let era := y / 400
  let yoe := y - era * 400
  let mp := (month + 9) % 12
  let doy := (153 * mp + 2) / 5 + day - 1
  let doe := yoe * 365 + yoe / 4 - yoe / 100 + doy
  ((era * 146097 + doe : Nat) : Int) - 719468

/-- The call `time.Date(year, month, day, hour, min, sec, nsec, time.UTC)` of the Go standard
library, for a date of the common era and fields within their ranges. -/
def timeDate (year month day hour min sec nsec : Nat) : Time :=
  { sec := daysFromCivil year month day * 86400 + ((hour * 3600 + min * 60 + sec : Nat) : Int)
    nsec := nsec }

/-- Modelled from the spec: the count of 100-nanosecond ticks from 1601-01-01T00:00:00Z to
`t`, `(unixSeconds(t) + 11644473600) * 10^7 + nanoseconds(t) / 100`. -/
def ticks (t : Time) : Int :=
  (t.sec + 11644473600) * 10000000 + ((t.nsec / 100 : Nat) : Int)

/-- Whether a tick count fits an `int64`. -/
def inTickRange (n : Int) : Bool :=
  decide (-9223372036854775808 ≤ n) && decide (n < 9223372036854775808)

/-- The writer of an `int64`: eight little-endian bytes, two's complement. -/
def encodeInt64 (n : Int) : Bytes :=
  putLE 8 (n % 18446744073709551616).toNat

/-- The reader of an `int64`. -/
def decodeInt64 : Decoder Int := fun b =>
  match getLE 8 b with
  | none => none
  | some (n, rest) =>
    some (if n < 9223372036854775808 then (n : Int) else (n : Int) - 18446744073709551616, rest)

/-- Modelled from the spec: a timestamp is written as its `int64` tick count; a time whose
tick count does not fit is out of range and is written as the null timestamp, 0 ticks. -/
def encodeTimestamp (t : Time) : Bytes :=
  encodeInt64 (if inTickRange (ticks t) then ticks t else 0)

/-- The instant that lies `n` ticks after 1601-01-01T00:00:00Z. -/
def timeOfTicks (n : Int) : Time :=
  { sec := n / 10000000 - 11644473600
    nsec := (n % 10000000).toNat * 100 }

/-- Modelled from the spec: the reader of a timestamp, from the tick count back to the host
time. -/
def decodeTimestamp : Decoder Time := fun b =>
  match decodeInt64 b with
  | none => none
  | some (n, rest) => some (timeOfTicks n, rest)

/-- Whether a time is in the representable range: whole ticks (nanoseconds within the
second, a multiple of 100) and a tick count that fits an `int64`. -/
def wfTime (t : Time) : Bool :=
  decide (t.nsec < 1000000000) && decide (t.nsec % 100 = 0) && inTickRange (ticks t)

/-! ## Service messages -/

/-- A UserTokenPolicy, with the fields in the order the test's bytes show. -/
structure UserTokenPolicy where
  PolicyID : UAString
  TokenType : Nat
  IssuedTokenType : UAString
  IssuerEndpointURI : UAString
  SecurityPolicyURI : UAString
  deriving DecidableEq, Repr

/-- Modelled from the spec: the fields in declared order, the token type as a `uint32`. -/
def encodeUserTokenPolicy (p : UserTokenPolicy) : Bytes :=
  encodeString p.PolicyID ++ putLE 4 p.TokenType ++ encodeString p.IssuedTokenType ++
    encodeString p.IssuerEndpointURI ++ encodeString p.SecurityPolicyURI

/-- Modelled from the spec: the reader of a UserTokenPolicy. -/
def decodeUserTokenPolicy : Decoder UserTokenPolicy := fun b => do
  let (policyID, b) ← decodeString b
  let (tokenType, b) ← getLE 4 b
  let (issuedTokenType, b) ← decodeString b
  let (issuerEndpointURI, b) ← decodeString b
  let (securityPolicyURI, b) ← decodeString b
  some ({ PolicyID := policyID, TokenType := tokenType, IssuedTokenType := issuedTokenType,
          IssuerEndpointURI := issuerEndpointURI, SecurityPolicyURI := securityPolicyURI }, b)

/-- Whether the fields of a UserTokenPolicy are values of their types. -/
def wfUserTokenPolicy (p : UserTokenPolicy) : Bool :=
  wfString p.PolicyID && decide (p.TokenType < 4294967296) && wfString p.IssuedTokenType &&
    wfString p.IssuerEndpointURI && wfString p.SecurityPolicyURI

/-- Modelled from the spec: the encoded size of a UserTokenPolicy, the sizes of its strings and
four bytes for the token type. -/
def lenUserTokenPolicy (p : UserTokenPolicy) : Nat :=
  lenByteString p.PolicyID + 4 + lenByteString p.IssuedTokenType +
    lenByteString p.IssuerEndpointURI + lenByteString p.SecurityPolicyURI

/-- An ApplicationDescription, with the fields in the order the test's bytes show. -/
structure ApplicationDescription where
  ApplicationURI : UAString
  ProductURI : UAString
  ApplicationName : LocalizedText
  ApplicationType : Nat
  GatewayServerURI : UAString
  DiscoveryProfileURI : UAString
  DiscoveryURIs : Option (List UAString)
  deriving DecidableEq, Repr

/-- Modelled from the spec: the fields in declared order, the application type as a
`uint32`. -/
def encodeApplicationDescription (a : ApplicationDescription) : Bytes :=
  encodeString a.ApplicationURI ++ encodeString a.ProductURI ++
    encodeLocalizedText a.ApplicationName ++ putLE 4 a.ApplicationType ++
    encodeString a.GatewayServerURI ++ encodeString a.DiscoveryProfileURI ++
    encodeArray encodeString a.DiscoveryURIs

/-- Modelled from the spec: the reader of an ApplicationDescription. -/
def decodeApplicationDescription : Decoder ApplicationDescription := fun b => do
  let (applicationURI, b) ← decodeString b
  let (productURI, b) ← decodeString b
  let (applicationName, b) ← decodeLocalizedText b
  let (applicationType, b) ← getLE 4 b
  let (gatewayServerURI, b) ← decodeString b
  let (discoveryProfileURI, b) ← decodeString b
  let (discoveryURIs, b) ← decodeArray decodeString b
  some ({ ApplicationURI := applicationURI, ProductURI := productURI,
          ApplicationName := applicationName, ApplicationType := applicationType,
          GatewayServerURI := gatewayServerURI, DiscoveryProfileURI := discoveryProfileURI,
          DiscoveryURIs := discoveryURIs }, b)

/-- Whether the fields of an ApplicationDescription are values of their types. -/
def wfApplicationDescription (a : ApplicationDescription) : Bool :=
  wfString a.ApplicationURI && wfString a.ProductURI && wfLocalizedText a.ApplicationName &&
    decide (a.ApplicationType < 4294967296) && wfString a.GatewayServerURI &&
    wfString a.DiscoveryProfileURI && wfArray wfString a.DiscoveryURIs

/-- Modelled from the spec: the encoded size of an ApplicationDescription, the sizes of its
fields and four bytes for the application type. -/
def lenApplicationDescription (a : ApplicationDescription) : Nat :=
  lenByteString a.ApplicationURI + lenByteString a.ProductURI +
    lenLocalizedText a.ApplicationName + 4 + lenByteString a.GatewayServerURI +
    lenByteString a.DiscoveryProfileURI + lenArray lenByteString a.DiscoveryURIs

/-- An EndpointDescription, with the fields in the order the test's bytes show. -/
structure EndpointDescription where
  EndpointURL : UAString
  Server : ApplicationDescription
  ServerCertificate : ByteString
  MessageSecurityMode : Nat
  SecurityPolicyURI : UAString
  UserIdentityTokens : Option (List UserTokenPolicy)
  TransportProfileURI : UAString
  SecurityLevel : Nat
  deriving DecidableEq, Repr

/-- Modelled from the spec: the fields in declared order, the security mode as a `uint32`
and the security level as a `uint8`. -/
def encodeEndpointDescription (e : EndpointDescription) : Bytes :=
  encodeString e.EndpointURL ++ encodeApplicationDescription e.Server ++
    encodeByteString e.ServerCertificate ++ putLE 4 e.MessageSecurityMode ++
    encodeString e.SecurityPolicyURI ++
    encodeArray encodeUserTokenPolicy e.UserIdentityTokens ++
    encodeString e.TransportProfileURI ++ putLE 1 e.SecurityLevel

/-- Modelled from the spec: the reader of an EndpointDescription. -/
def decodeEndpointDescription : Decoder EndpointDescription := fun b => do
  let (endpointURL, b) ← decodeString b
  let (server, b) ← decodeApplicationDescription b
  let (serverCertificate, b) ← decodeByteString b
  let (messageSecurityMode, b) ← getLE 4 b
  let (securityPolicyURI, b) ← decodeString b
  let (userIdentityTokens, b) ← decodeArray decodeUserTokenPolicy b
  let (transportProfileURI, b) ← decodeString b
  let (securityLevel, b) ← getLE 1 b
  some ({ EndpointURL := endpointURL, Server := server,
          ServerCertificate := serverCertificate, MessageSecurityMode := messageSecurityMode,
          SecurityPolicyURI := securityPolicyURI, UserIdentityTokens := userIdentityTokens,
          TransportProfileURI := transportProfileURI, SecurityLevel := securityLevel }, b)

/-- Whether the fields of an EndpointDescription are values of their types. -/
def wfEndpointDescription (e : EndpointDescription) : Bool :=
  wfString e.EndpointURL && wfApplicationDescription e.Server &&
    wfByteString e.ServerCertificate && decide (e.MessageSecurityMode < 4294967296) &&
    wfString e.SecurityPolicyURI && wfArray wfUserTokenPolicy e.UserIdentityTokens &&
    wfString e.TransportProfileURI && decide (e.SecurityLevel < 256)

/-- Modelled from the spec: the encoded size of an EndpointDescription, the sizes of its
fields, four bytes for the security mode and one for the security level. -/
def lenEndpointDescription (e : EndpointDescription) : Nat :=
  lenByteString e.EndpointURL + lenApplicationDescription e.Server +
    lenByteString e.ServerCertificate + 4 + lenByteString e.SecurityPolicyURI +
    lenArray lenUserTokenPolicy e.UserIdentityTokens + lenByteString e.TransportProfileURI + 1

/-- Modelled from the spec: the spec gives no layout for a SignedSoftwareCertificate and the
test has only the empty array of them; the element is read as the two byte strings of
IEC 62541, the certificate data and its signature. -/
structure SignedSoftwareCertificate where
  CertificateData : ByteString
  Signature : ByteString
  deriving DecidableEq, Repr

/-- The two byte strings of a SignedSoftwareCertificate, one after the other. -/
def encodeSignedSoftwareCertificate (c : SignedSoftwareCertificate) : Bytes :=
  encodeByteString c.CertificateData ++ encodeByteString c.Signature

/-- The reader of a SignedSoftwareCertificate. -/
def decodeSignedSoftwareCertificate : Decoder SignedSoftwareCertificate := fun b => do
  let (certificateData, b) ← decodeByteString b
  let (signature, b) ← decodeByteString b
  some ({ CertificateData := certificateData, Signature := signature }, b)

/-- Whether the fields of a SignedSoftwareCertificate are values of their types. -/
def wfSignedSoftwareCertificate (c : SignedSoftwareCertificate) : Bool :=
  wfByteString c.CertificateData && wfByteString c.Signature

/-- The encoded size of a SignedSoftwareCertificate. -/
def lenSignedSoftwareCertificate (c : SignedSoftwareCertificate) : Nat :=
  lenByteString c.CertificateData + lenByteString c.Signature

/-- A SignatureData: the algorithm URI and the signature bytes. -/
structure SignatureData where
  Algorithm : UAString
  Signature : ByteString
  deriving DecidableEq, Repr

/-- Modelled from the spec: the algorithm as a string, then the signature as a byte
string. -/
def encodeSignatureData (d : SignatureData) : Bytes :=
  encodeString d.Algorithm ++ encodeByteString d.Signature

/-- Modelled from the spec: the reader of a SignatureData. -/
def decodeSignatureData : Decoder SignatureData := fun b => do
  let (algorithm, b) ← decodeString b
  let (signature, b) ← decodeByteString b
  some ({ Algorithm := algorithm, Signature := signature }, b)

/-- Whether the fields of a SignatureData are values of their types. -/
def wfSignatureData (d : SignatureData) : Bool :=
  wfString d.Algorithm && wfByteString d.Signature

/-- The encoded size of a SignatureData. -/
def lenSignatureData (d : SignatureData) : Nat :=
  lenByteString d.Algorithm + lenByteString d.Signature

/-- The header of a response, the six fields of the spec. The Go struct also has `Payload`,
where decoding leaves the bytes that follow the header and which the test clears before it
compares; it is not one of the spec's fields and is left out of the model. -/
structure ResponseHeader where
  Timestamp : Time
  RequestHandle : Nat
  ServiceResult : Nat
  ServiceDiagnostics : DiagnosticInfo
  StringTable : Option (List UAString)
  AdditionalHeader : ExtensionObject
  deriving DecidableEq, Repr

/-- Modelled from the spec: a response header carries `Timestamp, RequestHandle,
ServiceResult, ServiceDiagnostics, StringTable, AdditionalHeader`, in that order. -/
def encodeResponseHeader (h : ResponseHeader) : Bytes :=
  encodeTimestamp h.Timestamp ++ putLE 4 h.RequestHandle ++ putLE 4 h.ServiceResult ++
    encodeDiagnosticInfo h.ServiceDiagnostics ++ encodeArray encodeString h.StringTable ++
    encodeExtensionObject h.AdditionalHeader

/-- Modelled from the spec: the reader of a response header. -/
def decodeResponseHeader : Decoder ResponseHeader := fun b => do
  let (timestamp, b) ← decodeTimestamp b
  let (requestHandle, b) ← getLE 4 b
  let (serviceResult, b) ← getLE 4 b
  let (serviceDiagnostics, b) ← decodeDiagnosticInfo b
  let (stringTable, b) ← decodeArray decodeString b
  let (additionalHeader, b) ← decodeExtensionObject b
  some ({ Timestamp := timestamp, RequestHandle := requestHandle,
          ServiceResult := serviceResult, ServiceDiagnostics := serviceDiagnostics,
          StringTable := stringTable, AdditionalHeader := additionalHeader }, b)

/-- Whether the fields of a response header are values of their types; for the timestamp,
that it is in the representable range. -/
def wfResponseHeader (h : ResponseHeader) : Bool :=
  wfTime h.Timestamp && decide (h.RequestHandle < 4294967296) &&
    decide (h.ServiceResult < 4294967296) && wfDiagnosticInfo h.ServiceDiagnostics &&
    wfArray wfString h.StringTable && wfExtensionObject h.AdditionalHeader

/-- Modelled from the spec: the encoded size of a response header, eight bytes for the
timestamp, four each for request handle and service result, and the sizes of the other
three fields. -/
def lenResponseHeader (h : ResponseHeader) : Nat :=
  8 + 4 + 4 + lenDiagnosticInfo h.ServiceDiagnostics + lenArray lenByteString h.StringTable +
    lenExtensionObject h.AdditionalHeader

/-- The numeric TypeId of CreateSessionResponse, the constant
`ServiceTypeCreateSessionResponse`; the test's TypeID bytes `01 00 D0 01` hold it. -/
def ServiceTypeCreateSessionResponse : Nat := 464

/-- A CreateSessionResponse: the header and the body fields in the order the test's bytes
show. The TypeId is fixed by the message type and is not a field. -/
structure CreateSessionResponse where
  ResponseHeader : ResponseHeader
  SessionID : NodeID
  AuthenticationToken : NodeID
  RevisedSessionTimeout : Nat
  ServerNonce : ByteString
  ServerCertificate : ByteString
  ServerEndpoints : Option (List EndpointDescription)
  ServerSoftwareCertificates : Option (List SignedSoftwareCertificate)
  ServerSignature : SignatureData
  MaxRequestMessageSize : Nat
  deriving DecidableEq, Repr

/-- The method `ServiceType()` of a CreateSessionResponse. -/
def CreateSessionResponse.ServiceType (_m : CreateSessionResponse) : Nat :=
  ServiceTypeCreateSessionResponse

/-- Modelled from the spec: the wire form of a message is `TypeId as four-byte NodeId,
Header, body fields in declared order`; the revised session timeout is the eight-byte
integer of the test's bytes. -/
def encodeCreateSessionResponse (m : CreateSessionResponse) : Bytes :=
  encodeNodeID (.FourByte 0 ServiceTypeCreateSessionResponse) ++
    encodeResponseHeader m.ResponseHeader ++ encodeNodeID m.SessionID ++
    encodeNodeID m.AuthenticationToken ++ putLE 8 m.RevisedSessionTimeout ++
    encodeByteString m.ServerNonce ++ encodeByteString m.ServerCertificate ++
    encodeArray encodeEndpointDescription m.ServerEndpoints ++
    encodeArray encodeSignedSoftwareCertificate m.ServerSoftwareCertificates ++
    encodeSignatureData m.ServerSignature ++ putLE 4 m.MaxRequestMessageSize

/-- Modelled from the spec: the method `Serialize()`, which returns the bytes and no
error. -/
def CreateSessionResponse.Serialize (m : CreateSessionResponse) : Except String Bytes :=
  .ok (encodeCreateSessionResponse m)

/-- Modelled from the spec: the reader of the TypeId that opens a message; anything but the
four-byte NodeId of the expected service is the error `UnknownService`. -/
def decodeTypeID (service : Nat) : Decoder Unit := fun b =>
  match decodeNodeID b with
  | some (typeID, rest) => if typeID = .FourByte 0 service then some ((), rest) else none
  | none => none

/-- Modelled from the spec: the reader of a CreateSessionResponse off the front of the
input: the TypeId, the header, then the body fields. -/
def decodeCreateSessionResponse : Decoder CreateSessionResponse := fun b => do
  let (_, b) ← decodeTypeID ServiceTypeCreateSessionResponse b
  let (responseHeader, b) ← decodeResponseHeader b
  let (sessionID, b) ← decodeNodeID b
  let (authenticationToken, b) ← decodeNodeID b
  let (revisedSessionTimeout, b) ← getLE 8 b
  let (serverNonce, b) ← decodeByteString b
  let (serverCertificate, b) ← decodeByteString b
  let (serverEndpoints, b) ← decodeArray decodeEndpointDescription b
  let (serverSoftwareCertificates, b) ← decodeArray decodeSignedSoftwareCertificate b
  let (serverSignature, b) ← decodeSignatureData b
  let (maxRequestMessageSize, b) ← getLE 4 b
  some ({ ResponseHeader := responseHeader, SessionID := sessionID,
          AuthenticationToken := authenticationToken,
          RevisedSessionTimeout := revisedSessionTimeout, ServerNonce := serverNonce,
          ServerCertificate := serverCertificate, ServerEndpoints := serverEndpoints,
          ServerSoftwareCertificates := serverSoftwareCertificates,
          ServerSignature := serverSignature,
          MaxRequestMessageSize := maxRequestMessageSize }, b)

/-- Modelled from the spec: the function `DecodeCreateSessionResponse(b)`, the message read
off the front of `b`, or no message on a decoding error. -/
def DecodeCreateSessionResponse (b : Bytes) : Option CreateSessionResponse :=
  match decodeCreateSessionResponse b with
  | some (m, _) => some m
  | none => none

/-- Whether the fields of a CreateSessionResponse are values of their types: integers
within their widths, strings of UTF-8 text, lengths and counts that fit an `int32`, and a
timestamp in the representable range. -/
def wfCreateSessionResponse (m : CreateSessionResponse) : Bool :=
  wfResponseHeader m.ResponseHeader && wfNodeID m.SessionID &&
    wfNodeID m.AuthenticationToken && decide (m.RevisedSessionTimeout < 18446744073709551616) &&
    wfByteString m.ServerNonce && wfByteString m.ServerCertificate &&
    wfArray wfEndpointDescription m.ServerEndpoints &&
    wfArray wfSignedSoftwareCertificate m.ServerSoftwareCertificates &&
    wfSignatureData m.ServerSignature && decide (m.MaxRequestMessageSize < 4294967296)

/-- Modelled from the spec: the method `Len()`, the size part of the `encode/decode/size`
triple of the message: four bytes for the TypeId, the size of the header, and the sizes of the
body fields, each computed from the field and not from its encoding. -/
def CreateSessionResponse.Len (m : CreateSessionResponse) : Nat :=
  4 + lenResponseHeader m.ResponseHeader + lenNodeID m.SessionID +
    lenNodeID m.AuthenticationToken + 8 + lenByteString m.ServerNonce +
    lenByteString m.ServerCertificate + lenArray lenEndpointDescription m.ServerEndpoints +
    lenArray lenSignedSoftwareCertificate m.ServerSoftwareCertificates +
    lenSignatureData m.ServerSignature + 4

/-- A byte string is a well-formed CreateSessionResponse when it decodes with nothing left
over. The reader fails on the errors the spec names and on nothing else: a short read, a
negative length other than `-1`, bytes of a string that are not UTF-8, an unknown NodeId
variant and an unknown service. -/
def WellFormed (b : Bytes) : Prop :=
  ∃ m, decodeCreateSessionResponse b = some (m, [])

/-! ## The constructors and the case of the test -/

/-- The bytes of a Go string constant that is made of ASCII characters. -/
def bytesOf (s : String) : Bytes :=
  s.toList.map fun c => Fin.ofNat c.toNat

/-- A Go `string` as a string of the data model. -/
def NewString (s : Bytes) : UAString :=
  some s

/-- A Go `[]byte` (nil is `none`) as a byte string of the data model. A slice without bytes
becomes the null byte string: the test builds its endpoints with the certificate `[]byte{}`
and records `FF FF FF FF` for it, the same bytes as for the nil ServerNonce. -/
def NewByteString (b : Option Bytes) : ByteString :=
  match b with
  | some (x :: xs) => some (x :: xs)
  | _ => none

/-- The constructor `datatypes.NewNumericNodeID(ns, id)`: a NodeId of the Numeric variant. -/
def NewNumericNodeID (ns id : Nat) : NodeID :=
  .Numeric ns id

/-- The constructor `datatypes.NewOpaqueNodeID(ns, val)`: a NodeId of the Opaque variant. -/
def NewOpaqueNodeID (ns : Nat) (val : Option Bytes) : NodeID :=
  .Opaque ns (NewByteString val)

/-- The constructor `NewNullDiagnosticInfo()`. -/
def NewNullDiagnosticInfo : DiagnosticInfo :=
  .single { EncodingMask := 0, SymbolicID := none, NamespaceURI := none, Locale := none,
            LocalizedText := none, AdditionalInfo := none, InnerStatusCode := none }

/-- The constructor `NewNullAdditionalHeader()`: the bytes `00 00 00` of the test, a TwoByte
TypeId 0 and the encoding mask 0. -/
def NewNullAdditionalHeader : ExtensionObject :=
  { TypeID := .TwoByte 0, EncodingMask := 0, Body := none }

/-- The constructor `NewResponseHeader(timestamp, handle, code, diag, strs, ah, payload)`.
The payload, nil in the test, has no field in the model. -/
def NewResponseHeader (timestamp : Time) (handle code : Nat) (diag : DiagnosticInfo)
    (strs : List Bytes) (ah : ExtensionObject) (_payload : Option Bytes) : ResponseHeader :=
  { Timestamp := timestamp, RequestHandle := handle, ServiceResult := code,
    ServiceDiagnostics := diag, StringTable := some (strs.map NewString),
    AdditionalHeader := ah }

/-- The constructor `NewSignatureData(algorithm, signature)`. -/
def NewSignatureData (algorithm : Bytes) (signature : Option Bytes) : SignatureData :=
  { Algorithm := NewString algorithm, Signature := NewByteString signature }

/-- The constructor `NewUserTokenPolicy(id, tokenType, issuedToken, issuerURI, secURI)`. -/
def NewUserTokenPolicy (id : Bytes) (tokenType : Nat) (issuedToken issuerURI secURI : Bytes) :
    UserTokenPolicy :=
  { PolicyID := NewString id, TokenType := tokenType, IssuedTokenType := NewString issuedToken,
    IssuerEndpointURI := NewString issuerURI, SecurityPolicyURI := NewString secURI }

/-- The constructor `NewUserTokenPolicyArray(policies)`. -/
def NewUserTokenPolicyArray (policies : List UserTokenPolicy) : Option (List UserTokenPolicy) :=
  some policies

/-- The constructor `NewApplicationDescription(appURI, prodURI, appName, appType, gwURI,
profURI, discovURIs)`; the application name is a text without locale (mask 02 in the
test). -/
def NewApplicationDescription (appURI prodURI appName : Bytes) (appType : Nat)
    (gwURI profURI : Bytes) (discovURIs : List Bytes) : ApplicationDescription :=
  { ApplicationURI := NewString appURI, ProductURI := NewString prodURI,
    ApplicationName := { EncodingMask := 2, Locale := none, Text := some (NewString appName) },
    ApplicationType := appType, GatewayServerURI := NewString gwURI,
    DiscoveryProfileURI := NewString profURI,
    DiscoveryURIs := some (discovURIs.map NewString) }

/-- The constructor `NewEndpointDescription(url, server, cert, secMode, secURI, tokens,
transportURI, secLevel)`. -/
def NewEndpointDescription (url : Bytes) (server : ApplicationDescription)
    (cert : Option Bytes) (secMode : Nat) (secURI : Bytes)
    (tokens : Option (List UserTokenPolicy)) (transportURI : Bytes) (secLevel : Nat) :
    EndpointDescription :=
  { EndpointURL := NewString url, Server := server, ServerCertificate := NewByteString cert,
    MessageSecurityMode := secMode, SecurityPolicyURI := NewString secURI,
    UserIdentityTokens := tokens, TransportProfileURI := NewString transportURI,
    SecurityLevel := secLevel }

/-- The constructor `NewCreateSessionResponse(resHeader, sessionID, authToken, timeout,
nonce, cert, svrSignature, maxRespSize, endpoints...)`; it takes no software certificates
and the message has the empty array of them (count 0 in the test). -/
def NewCreateSessionResponse (resHeader : ResponseHeader) (sessionID authToken : NodeID)
    (timeout : Nat) (nonce cert : Option Bytes) (svrSignature : SignatureData)
    (maxRespSize : Nat) (endpoints : List EndpointDescription) : CreateSessionResponse :=
  { ResponseHeader := resHeader, SessionID := sessionID, AuthenticationToken := authToken,
    RevisedSessionTimeout := timeout, ServerNonce := NewByteString nonce,
    ServerCertificate := NewByteString cert, ServerEndpoints := some endpoints,
    ServerSoftwareCertificates := some [], ServerSignature := svrSignature,
    MaxRequestMessageSize := maxRespSize }

/-- The constant `AppTypeServer`; the test's bytes for ApplicationType are `00 00 00 00`. -/
def AppTypeServer : Nat := 0

/-- The constant `SecModeNone`; the test's bytes for MessageSecurityMode are
`01 00 00 00`. -/
def SecModeNone : Nat := 1

/-- The constant `UserTokenAnonymous`; the test's bytes for the token type are
`00 00 00 00`. -/
def UserTokenAnonymous : Nat := 0

/-- The endpoint description the test passes twice, with the certificate as the Go slice
`cert`. -/
def caseEndpoint (cert : Option Bytes) : EndpointDescription :=
  NewEndpointDescription (bytesOf "ep-url")
    (NewApplicationDescription (bytesOf "app-uri") (bytesOf "prod-uri") (bytesOf "app-name")
      AppTypeServer (bytesOf "gw-uri") (bytesOf "prof-uri")
      [bytesOf "discov-uri-1", bytesOf "discov-uri-2"])
    cert SecModeNone (bytesOf "sec-uri")
    (NewUserTokenPolicyArray
      [NewUserTokenPolicy (bytesOf "1") UserTokenAnonymous (bytesOf "issued-token")
        (bytesOf "issuer-uri") (bytesOf "sec-uri"),
       NewUserTokenPolicy (bytesOf "1") UserTokenAnonymous (bytesOf "issued-token")
        (bytesOf "issuer-uri") (bytesOf "sec-uri")])
    (bytesOf "trans-uri") 0

/-- The `structured` value of `createSessionResponseCases`, with the header timestamp as a
parameter. -/
def caseStructuredAt (timestamp : Time) : CreateSessionResponse :=
  NewCreateSessionResponse
    (NewResponseHeader timestamp 1 0 NewNullDiagnosticInfo [] NewNullAdditionalHeader none)
    (NewNumericNodeID 0 1)
    (NewOpaqueNodeID 0 (some
      [0x08, 0x22, 0x87, 0x62, 0xba, 0x81, 0xe1, 0x11,
       0xa6, 0x43, 0xf8, 0x77, 0x7b, 0xc6, 0x2f, 0xc8]))
    6000000 none none
    (NewSignatureData (bytesOf "http://www.w3.org/2000/09/xmldsig#rsa-sha1") none)
    65534
    [caseEndpoint (some []), caseEndpoint (some [])]

/-- The `structured` value of `createSessionResponseCases`: the header timestamp is
`time.Date(2018, time.August, 10, 23, 0, 0, 0, time.UTC)`. -/
def caseStructured : CreateSessionResponse :=
  caseStructuredAt (timeDate 2018 8 10 23 0 0 0)

/-- A DiagnosticInfo that carries fields: a symbolic id, additional info and an inner
DiagnosticInfo (mask 51), the inner one with a status code (mask 20). -/
def sampleDiagnosticInfo : DiagnosticInfo :=
  .withInner
    { EncodingMask := 0x51, SymbolicID := some 7, NamespaceURI := none, Locale := none,
      LocalizedText := none, AdditionalInfo := some (NewString (bytesOf "info")),
      InnerStatusCode := none }
    (.single
      { EncodingMask := 0x20, SymbolicID := none, NamespaceURI := none, Locale := none,
        LocalizedText := none, AdditionalInfo := none, InnerStatusCode := some 0x80010000 })

/-- The case of the test with a header that carries diagnostics, a string table and an
additional header with a byte-string body. -/
def caseWithDiagnostics : CreateSessionResponse :=
  { caseStructured with
    ResponseHeader :=
      { Timestamp := timeDate 2018 8 10 23 0 0 0, RequestHandle := 1, ServiceResult := 0x80010000,
        ServiceDiagnostics := sampleDiagnosticInfo,
        StringTable := some [NewString (bytesOf "a"), NewString (bytesOf "bc")],
        AdditionalHeader :=
          { TypeID := .FourByte 1 300, EncodingMask := 1, Body := some (some [1, 2, 3]) } } }

/-- The `serialized` bytes of `createSessionResponseCases`. -/
def caseSerialized : Bytes :=
  [
    -- TypeID
    0x01, 0x00, 0xd0, 0x01,
    -- Timestamp
    0x00, 0x98, 0x67, 0xdd, 0xfd, 0x30, 0xd4, 0x01,
    -- RequestHandle
    0x01, 0x00, 0x00, 0x00,
    -- ServiceResult
    0x00, 0x00, 0x00, 0x00,
    -- ServiceDiagnostics
    0x00,
    -- StringTable
    0x00, 0x00, 0x00, 0x00,
    -- AdditionalHeader
    0x00, 0x00, 0x00,
    -- SessionID
    0x02, 0x00, 0x00, 0x01, 0x00, 0x00, 0x00,
    -- AuthenticationToken
    0x05, 0x00, 0x00, 0x10, 0x00, 0x00, 0x00, 0x08,
    0x22, 0x87, 0x62, 0xba, 0x81, 0xe1, 0x11, 0xa6,
    0x43, 0xf8, 0x77, 0x7b, 0xc6, 0x2f, 0xc8,
    -- RevisedSessionTimeout
    0x80, 0x8d, 0x5b, 0x00, 0x00, 0x00, 0x00, 0x00,
    -- ServerNonce
    0xff, 0xff, 0xff, 0xff,
    -- ServerCertificate
    0xff, 0xff, 0xff, 0xff,
    -- ServerEndpoints
    -- ArraySize
    0x02, 0x00, 0x00, 0x00,
    -- EndpointURL
    0x06, 0x00, 0x00, 0x00, 0x65, 0x70, 0x2d, 0x75, 0x72, 0x6c,
    -- Server
    -- ApplicationURI
    0x07, 0x00, 0x00, 0x00, 0x61, 0x70, 0x70, 0x2d, 0x75, 0x72, 0x69,
    -- ProductURI
    0x08, 0x00, 0x00, 0x00, 0x70, 0x72, 0x6f, 0x64, 0x2d, 0x75, 0x72, 0x69,
    -- ApplicationName
    0x02, 0x08, 0x00, 0x00, 0x00, 0x61, 0x70, 0x70, 0x2d, 0x6e, 0x61, 0x6d, 0x65,
    -- ApplicationType
    0x00, 0x00, 0x00, 0x00,
    -- GatewayServerURI
    0x06, 0x00, 0x00, 0x00, 0x67, 0x77, 0x2d, 0x75, 0x72, 0x69,
    -- DiscoveryProfileURI
    0x08, 0x00, 0x00, 0x00, 0x70, 0x72, 0x6f, 0x66, 0x2d, 0x75, 0x72, 0x69,
    -- DiscoveryURIs
    0x02, 0x00, 0x00, 0x00,
    0x0c, 0x00, 0x00, 0x00, 0x64, 0x69, 0x73, 0x63, 0x6f, 0x76, 0x2d, 0x75, 0x72, 0x69, 0x2d, 0x31,
    0x0c, 0x00, 0x00, 0x00, 0x64, 0x69, 0x73, 0x63, 0x6f, 0x76, 0x2d, 0x75, 0x72, 0x69, 0x2d, 0x32,
    -- ServerCertificate
    0xff, 0xff, 0xff, 0xff,
    -- MessageSecurityMode
    0x01, 0x00, 0x00, 0x00,
    -- SecurityPolicyURI
    0x07, 0x00, 0x00, 0x00, 0x73, 0x65, 0x63, 0x2d, 0x75, 0x72, 0x69,
    -- UserIdentityTokens
    0x02, 0x00, 0x00, 0x00,
    0x01, 0x00, 0x00, 0x00, 0x31, 0x00, 0x00, 0x00, 0x00,
    0x0c, 0x00, 0x00, 0x00, 0x69, 0x73, 0x73, 0x75, 0x65, 0x64, 0x2d, 0x74, 0x6f, 0x6b, 0x65, 0x6e,
    0x0a, 0x00, 0x00, 0x00, 0x69, 0x73, 0x73, 0x75, 0x65, 0x72, 0x2d, 0x75, 0x72, 0x69,
    0x07, 0x00, 0x00, 0x00, 0x73, 0x65, 0x63, 0x2d, 0x75, 0x72, 0x69,
    0x01, 0x00, 0x00, 0x00, 0x31, 0x00, 0x00, 0x00, 0x00,
    0x0c, 0x00, 0x00, 0x00, 0x69, 0x73, 0x73, 0x75, 0x65, 0x64, 0x2d, 0x74, 0x6f, 0x6b, 0x65, 0x6e,
    0x0a, 0x00, 0x00, 0x00, 0x69, 0x73, 0x73, 0x75, 0x65, 0x72, 0x2d, 0x75, 0x72, 0x69,
    0x07, 0x00, 0x00, 0x00, 0x73, 0x65, 0x63, 0x2d, 0x75, 0x72, 0x69,
    -- TransportProfileURI
    0x09, 0x00, 0x00, 0x00, 0x74, 0x72, 0x61, 0x6e, 0x73, 0x2d, 0x75, 0x72, 0x69,
    -- SecurityLevel
    0x00,
    -- EndpointURL
    0x06, 0x00, 0x00, 0x00, 0x65, 0x70, 0x2d, 0x75, 0x72, 0x6c,
    -- Server
    -- ApplicationURI
    0x07, 0x00, 0x00, 0x00, 0x61, 0x70, 0x70, 0x2d, 0x75, 0x72, 0x69,
    -- ProductURI
    0x08, 0x00, 0x00, 0x00, 0x70, 0x72, 0x6f, 0x64, 0x2d, 0x75, 0x72, 0x69,
    -- ApplicationName
    0x02, 0x08, 0x00, 0x00, 0x00, 0x61, 0x70, 0x70, 0x2d, 0x6e, 0x61, 0x6d, 0x65,
    -- ApplicationType
    0x00, 0x00, 0x00, 0x00,
    -- GatewayServerURI
    0x06, 0x00, 0x00, 0x00, 0x67, 0x77, 0x2d, 0x75, 0x72, 0x69,
    -- DiscoveryProfileURI
    0x08, 0x00, 0x00, 0x00, 0x70, 0x72, 0x6f, 0x66, 0x2d, 0x75, 0x72, 0x69,
    -- DiscoveryURLs
    0x02, 0x00, 0x00, 0x00,
    0x0c, 0x00, 0x00, 0x00, 0x64, 0x69, 0x73, 0x63, 0x6f, 0x76, 0x2d, 0x75, 0x72, 0x69, 0x2d, 0x31,
    0x0c, 0x00, 0x00, 0x00, 0x64, 0x69, 0x73, 0x63, 0x6f, 0x76, 0x2d, 0x75, 0x72, 0x69, 0x2d, 0x32,
    -- ServerCertificate
    0xff, 0xff, 0xff, 0xff,
    -- MessageSecurityMode
    0x01, 0x00, 0x00, 0x00,
    -- SecurityPolicyURI
    0x07, 0x00, 0x00, 0x00, 0x73, 0x65, 0x63, 0x2d, 0x75, 0x72, 0x69,
    -- UserIdentityTokens
    0x02, 0x00, 0x00, 0x00,
    0x01, 0x00, 0x00, 0x00, 0x31, 0x00, 0x00, 0x00, 0x00,
    0x0c, 0x00, 0x00, 0x00, 0x69, 0x73, 0x73, 0x75, 0x65, 0x64, 0x2d, 0x74, 0x6f, 0x6b, 0x65, 0x6e,
    0x0a, 0x00, 0x00, 0x00, 0x69, 0x73, 0x73, 0x75, 0x65, 0x72, 0x2d, 0x75, 0x72, 0x69,
    0x07, 0x00, 0x00, 0x00, 0x73, 0x65, 0x63, 0x2d, 0x75, 0x72, 0x69,
    0x01, 0x00, 0x00, 0x00, 0x31, 0x00, 0x00, 0x00, 0x00,
    0x0c, 0x00, 0x00, 0x00, 0x69, 0x73, 0x73, 0x75, 0x65, 0x64, 0x2d, 0x74, 0x6f, 0x6b, 0x65, 0x6e,
    0x0a, 0x00, 0x00, 0x00, 0x69, 0x73, 0x73, 0x75, 0x65, 0x72, 0x2d, 0x75, 0x72, 0x69,
    0x07, 0x00, 0x00, 0x00, 0x73, 0x65, 0x63, 0x2d, 0x75, 0x72, 0x69,
    -- TransportProfileURI
    0x09, 0x00, 0x00, 0x00, 0x74, 0x72, 0x61, 0x6e, 0x73, 0x2d, 0x75, 0x72, 0x69,
    -- SecurityLevel
    0x00,
    -- ServerSoftwareCertificates
    0x00, 0x00, 0x00, 0x00,
    -- ServerSignature
    0x2a, 0x00, 0x00, 0x00, 0x68, 0x74, 0x74, 0x70, 0x3a, 0x2f, 0x2f, 0x77, 0x77, 0x77, 0x2e, 0x77,
    0x33, 0x2e, 0x6f, 0x72, 0x67, 0x2f, 0x32, 0x30, 0x30, 0x30, 0x2f, 0x30, 0x39, 0x2f, 0x78, 0x6d,
    0x6c, 0x64, 0x73, 0x69, 0x67, 0x23, 0x72, 0x73, 0x61, 0x2d, 0x73, 0x68, 0x61, 0x31,
    0xff, 0xff, 0xff, 0xff,
    -- MaxRequestMessageSize
    0xfe, 0xff, 0x00, 0x00
  ]

end Services

namespace Securitypolicy

/-! ## The asymmetric constructor -/

/-- The bundle the constructor fills for the keys `lk` and `rk`. -/
def asymmetricBundle (keySize : PublicKey → Nat) (lk : PrivateKey) (rk : PublicKey) :
    EncryptionAlgorithm :=
  { blockSize := keySize rk
    minPadding := minPaddingRsaOAEP .SHA1
    encrypt := .encryptRsaOAEP .SHA1 (some rk)
    decrypt := .decryptRsaOAEP .SHA1 (some lk)
    signature := .signRsaPss .SHA256 (some lk)
    verifySignature := .verifyRsaPss .SHA256 (some rk)
    signatureLength := keySize lk.PublicKey
    encryptionURI := "http://opcfoundation.org/UA/security/rsa-oaep-sha2-256"
    signatureURI := "http://opcfoundation.org/UA/security/rsa-pss-sha2-256" }

theorem outOfRange_eq_false_iff (size : Nat) :
    outOfRange size = false ↔ 256 ≤ size ∧ size ≤ 512 := by
  simp only [outOfRange, minAsymmetricKeyLength, maxAsymmetricKeyLength, Bool.or_eq_false_iff,
    decide_eq_false_iff_not, not_lt]

theorem outOfRange_eq_true_iff (size : Nat) :
    outOfRange size = true ↔ ¬ (256 ≤ size ∧ size ≤ 512) := by
  rw [← outOfRange_eq_false_iff]
  cases outOfRange size <;> simp

/-- On two non-nil keys the constructor is decided by the two guards. -/
theorem asymmetric_some_some (keySize : PublicKey → Nat) (lk : PrivateKey) (rk : PublicKey) :
    newAes256Sha256RsaPssAsymmetric keySize (some lk) (some rk) =
      if outOfRange (keySize lk.PublicKey) then
        .error (keySizeMessage "local" (keySize lk.PublicKey))
      else if outOfRange (keySize rk) then
        .error (keySizeMessage "remote" (keySize rk))
      else .bundle (asymmetricBundle keySize lk rk) := by
  simp only [newAes256Sha256RsaPssAsymmetric, asymmetricBundle]

/-- A returned bundle comes from two non-nil keys with sizes in range, and is the filled one. -/
theorem asymmetric_bundle_inv (keySize : PublicKey → Nat) (localKey : Option PrivateKey)
    (remoteKey : Option PublicKey) (e : EncryptionAlgorithm)
    (h : newAes256Sha256RsaPssAsymmetric keySize localKey remoteKey = .bundle e) :
    ∃ lk rk, localKey = some lk ∧ remoteKey = some rk ∧
      outOfRange (keySize lk.PublicKey) = false ∧ outOfRange (keySize rk) = false ∧
      e = asymmetricBundle keySize lk rk := by
  cases localKey with
  | none =>
    cases remoteKey with
    | none => simp [newAes256Sha256RsaPssAsymmetric] at h
    | some rk =>
      simp only [newAes256Sha256RsaPssAsymmetric] at h
      split at h <;> simp at h
  | some lk =>
    cases remoteKey with
    | none =>
      simp only [newAes256Sha256RsaPssAsymmetric] at h
      split at h <;> simp at h
    | some rk =>
      rw [asymmetric_some_some] at h
      refine ⟨lk, rk, rfl, rfl, ?_⟩
      cases hl : outOfRange (keySize lk.PublicKey) <;> cases hr : outOfRange (keySize rk) <;>
        simp [hl, hr] at h
      exact ⟨rfl, rfl, h.symm⟩

theorem modulusBytes_pub1024 : modulusBytes pub1024 = 128 := by decide

theorem modulusBytes_pub2048 : modulusBytes pub2048 = 256 := by decide

theorem modulusBytes_pub4096 : modulusBytes pub4096 = 512 := by decide

theorem modulusBytes_priv1024 : modulusBytes priv1024.PublicKey = 128 := by decide

theorem modulusBytes_priv2048 : modulusBytes priv2048.PublicKey = 256 := by decide

theorem modulusBytes_priv4096 : modulusBytes priv4096.PublicKey = 512 := by decide

/-- The 2048-bit key pair is accepted. -/
theorem asymmetric_2048_2048 :
    newAes256Sha256RsaPssAsymmetric modulusBytes (some priv2048) (some pub2048) =
      .bundle (asymmetricBundle modulusBytes priv2048 pub2048) := by
  rw [asymmetric_some_some, modulusBytes_priv2048, modulusBytes_pub2048]
  rfl

/-- A 2048-bit local key with a 4096-bit remote key is accepted. -/
theorem asymmetric_2048_4096 :
    newAes256Sha256RsaPssAsymmetric modulusBytes (some priv2048) (some pub4096) =
      .bundle (asymmetricBundle modulusBytes priv2048 pub4096) := by
  rw [asymmetric_some_some, modulusBytes_priv2048, modulusBytes_pub4096]
  rfl

/-- C1: on a non-nil local private key and a non-nil remote public key,
`newAes256Sha256RsaPssAsymmetric` returns an error (and no bundle) exactly when the local or
the remote key size in bytes is outside 256..512, and a bundle exactly when both are inside;
a 128-byte key on either side is rejected, and 256-byte and 512-byte keys on both sides are
accepted. -/
theorem asymmetric_rejects_iff_key_size_out_of_range (keySize : PublicKey → Nat)
    (lk : PrivateKey) (rk : PublicKey) :
    ((∃ msg, newAes256Sha256RsaPssAsymmetric keySize (some lk) (some rk) = .error msg) ↔
      (¬ (256 ≤ keySize lk.PublicKey ∧ keySize lk.PublicKey ≤ 512) ∨
        ¬ (256 ≤ keySize rk ∧ keySize rk ≤ 512))) ∧
    ((∃ e, newAes256Sha256RsaPssAsymmetric keySize (some lk) (some rk) = .bundle e) ↔
      ((256 ≤ keySize lk.PublicKey ∧ keySize lk.PublicKey ≤ 512) ∧
        (256 ≤ keySize rk ∧ keySize rk ≤ 512))) ∧
    (keySize lk.PublicKey = 128 ∨ keySize rk = 128 →
      ∃ msg, newAes256Sha256RsaPssAsymmetric keySize (some lk) (some rk) = .error msg) ∧
    ((keySize lk.PublicKey = 256 ∨ keySize lk.PublicKey = 512) ∧
        (keySize rk = 256 ∨ keySize rk = 512) →
      ∃ e, newAes256Sha256RsaPssAsymmetric keySize (some lk) (some rk) = .bundle e) := by
  have herr : (∃ msg, newAes256Sha256RsaPssAsymmetric keySize (some lk) (some rk) = .error msg) ↔
      (¬ (256 ≤ keySize lk.PublicKey ∧ keySize lk.PublicKey ≤ 512) ∨
        ¬ (256 ≤ keySize rk ∧ keySize rk ≤ 512)) := by
    rw [asymmetric_some_some, ← outOfRange_eq_true_iff, ← outOfRange_eq_true_iff]
    cases outOfRange (keySize lk.PublicKey) <;> cases outOfRange (keySize rk) <;> simp
  have hok : (∃ e, newAes256Sha256RsaPssAsymmetric keySize (some lk) (some rk) = .bundle e) ↔
      ((256 ≤ keySize lk.PublicKey ∧ keySize lk.PublicKey ≤ 512) ∧
        (256 ≤ keySize rk ∧ keySize rk ≤ 512)) := by
    rw [asymmetric_some_some, ← outOfRange_eq_false_iff, ← outOfRange_eq_false_iff]
    cases outOfRange (keySize lk.PublicKey) <;> cases outOfRange (keySize rk) <;> simp
  refine ⟨herr, hok, ?_, ?_⟩
  · intro h
    apply herr.mpr
    omega
  · intro h
    apply hok.mpr
    omega

/-- C1, at concrete keys: a 1024-bit key is rejected on the local side and on the remote side,
and the 2048-bit pair and the 4096-bit pair are accepted. -/
theorem asymmetric_rejects_iff_key_size_out_of_range_witness :
    (∃ msg, newAes256Sha256RsaPssAsymmetric modulusBytes (some priv1024) (some pub2048)
      = .error msg) ∧
    (∃ msg, newAes256Sha256RsaPssAsymmetric modulusBytes (some priv2048) (some pub1024)
      = .error msg) ∧
    (∃ e, newAes256Sha256RsaPssAsymmetric modulusBytes (some priv2048) (some pub2048)
      = .bundle e) ∧
    (∃ e, newAes256Sha256RsaPssAsymmetric modulusBytes (some priv4096) (some pub4096)
      = .bundle e) :=
  ⟨(asymmetric_rejects_iff_key_size_out_of_range modulusBytes priv1024 pub2048).2.2.1
      (Or.inl modulusBytes_priv1024),
    (asymmetric_rejects_iff_key_size_out_of_range modulusBytes priv2048 pub1024).2.2.1
      (Or.inr modulusBytes_pub1024),
    (asymmetric_rejects_iff_key_size_out_of_range modulusBytes priv2048 pub2048).2.2.2
      ⟨Or.inl modulusBytes_priv2048, Or.inl modulusBytes_pub2048⟩,
    (asymmetric_rejects_iff_key_size_out_of_range modulusBytes priv4096 pub4096).2.2.2
      ⟨Or.inr modulusBytes_priv4096, Or.inr modulusBytes_pub4096⟩⟩

/-- C2: for every key pair the constructor accepts, the bundle's `minPadding` is
`minPaddingRsaOAEP(crypto.SHA1)`, which is 2*20+2 = 42 and not the 2*32+2 = 66 of SHA-256. -/
theorem asymmetric_minPadding_is_sha1_overhead (keySize : PublicKey → Nat)
    (localKey : Option PrivateKey) (remoteKey : Option PublicKey) (e : EncryptionAlgorithm)
    (h : newAes256Sha256RsaPssAsymmetric keySize localKey remoteKey = .bundle e) :
    e.minPadding = 2 * 20 + 2 ∧ e.minPadding ≠ 2 * 32 + 2 := by
  obtain ⟨lk, rk, _, _, _, _, he⟩ := asymmetric_bundle_inv keySize localKey remoteKey e h
  subst he
  exact ⟨rfl, by simp [asymmetricBundle, minPaddingRsaOAEP, Hash.Size]⟩

/-- C2, at the 2048-bit key pair: the bundle has `blockSize` 256 and `signatureLength` 256,
and its `minPadding` is 42, not 66. -/
theorem asymmetric_minPadding_is_sha1_overhead_witness :
    ∃ e, newAes256Sha256RsaPssAsymmetric modulusBytes (some priv2048) (some pub2048) = .bundle e ∧
      e.blockSize = 256 ∧ e.signatureLength = 256 ∧ e.minPadding = 42 ∧ e.minPadding ≠ 66 :=
  ⟨asymmetricBundle modulusBytes priv2048 pub2048, asymmetric_2048_2048,
    modulusBytes_pub2048, modulusBytes_priv2048,
    (asymmetric_minPadding_is_sha1_overhead modulusBytes (some priv2048) (some pub2048) _
      asymmetric_2048_2048).1,
    (asymmetric_minPadding_is_sha1_overhead modulusBytes (some priv2048) (some pub2048) _
      asymmetric_2048_2048).2⟩

/-- C3: for every key pair the constructor accepts, `encrypt` and `decrypt` are the RSA-OAEP
closures built with `crypto.SHA1`, not with SHA-256, and `minPadding` is computed for that
same hash. -/
theorem asymmetric_oaep_hash_is_sha1 (keySize : PublicKey → Nat)
    (localKey : Option PrivateKey) (remoteKey : Option PublicKey) (e : EncryptionAlgorithm)
    (h : newAes256Sha256RsaPssAsymmetric keySize localKey remoteKey = .bundle e) :
    e.encrypt = .encryptRsaOAEP .SHA1 remoteKey ∧
    e.decrypt = .decryptRsaOAEP .SHA1 localKey ∧
    e.minPadding = minPaddingRsaOAEP .SHA1 ∧
    e.encrypt ≠ .encryptRsaOAEP .SHA256 remoteKey ∧
    e.decrypt ≠ .decryptRsaOAEP .SHA256 localKey ∧
    e.encryptionURI = "http://opcfoundation.org/UA/security/rsa-oaep-sha2-256" := by
  obtain ⟨lk, rk, hl, hr, _, _, he⟩ := asymmetric_bundle_inv keySize localKey remoteKey e h
  subst he hl hr
  refine ⟨rfl, rfl, rfl, ?_, ?_, rfl⟩ <;> simp [asymmetricBundle]

/-- C3, at the 2048-bit key pair: the stored closures are `encryptRsaOAEP(crypto.SHA1, ...)`
and `decryptRsaOAEP(crypto.SHA1, ...)`. -/
theorem asymmetric_oaep_hash_is_sha1_witness :
    ∃ e, newAes256Sha256RsaPssAsymmetric modulusBytes (some priv2048) (some pub2048) = .bundle e ∧
      e.encrypt = .encryptRsaOAEP .SHA1 (some pub2048) ∧
      e.decrypt = .decryptRsaOAEP .SHA1 (some priv2048) ∧
      e.encrypt ≠ .encryptRsaOAEP .SHA256 (some pub2048) ∧
      e.decrypt ≠ .decryptRsaOAEP .SHA256 (some priv2048) :=
  have h := asymmetric_oaep_hash_is_sha1 modulusBytes (some priv2048) (some pub2048) _
    asymmetric_2048_2048
  ⟨_, asymmetric_2048_2048, h.1, h.2.1, h.2.2.2.1, h.2.2.2.2.1⟩

/-- C4: for every key pair the constructor accepts, `blockSize` is the size in bytes of the
remote public key and `signatureLength` the size in bytes of the local key, whatever the two
sizes are. -/
theorem asymmetric_blockSize_remote_signatureLength_local (keySize : PublicKey → Nat)
    (localKey : Option PrivateKey) (remoteKey : Option PublicKey) (e : EncryptionAlgorithm)
    (h : newAes256Sha256RsaPssAsymmetric keySize localKey remoteKey = .bundle e) :
    ∃ lk rk, localKey = some lk ∧ remoteKey = some rk ∧
      e.blockSize = keySize rk ∧ e.signatureLength = keySize lk.PublicKey := by
  obtain ⟨lk, rk, hl, hr, _, _, he⟩ := asymmetric_bundle_inv keySize localKey remoteKey e h
  subst he
  exact ⟨lk, rk, hl, hr, rfl, rfl⟩

/-- C4, at keys of different sizes: with a 2048-bit local key and a 4096-bit remote key the
bundle has `blockSize` 512 and `signatureLength` 256. -/
theorem asymmetric_blockSize_remote_signatureLength_local_witness :
    ∃ e, newAes256Sha256RsaPssAsymmetric modulusBytes (some priv2048) (some pub4096) = .bundle e ∧
      e.blockSize = 512 ∧ e.signatureLength = 256 := by
  obtain ⟨lk, rk, hl, hr, hb, hs⟩ :=
    asymmetric_blockSize_remote_signatureLength_local modulusBytes (some priv2048)
      (some pub4096) _ asymmetric_2048_4096
  cases hl
  cases hr
  exact ⟨_, asymmetric_2048_4096, hb.trans modulusBytes_pub4096,
    hs.trans modulusBytes_priv2048⟩

/-- C5: for every key pair the constructor accepts, `encrypt` is an RSA-OAEP closure over the
remote public key, `decrypt` an RSA-OAEP closure over the local private key, `signature` the
RSA-PSS closure with SHA-256 over the local private key and `verifySignature` the RSA-PSS
closure with SHA-256 over the remote public key; each closure captures that key and no
other. -/
theorem asymmetric_operations_bound_to_keys (keySize : PublicKey → Nat)
    (localKey : Option PrivateKey) (remoteKey : Option PublicKey) (e : EncryptionAlgorithm)
    (h : newAes256Sha256RsaPssAsymmetric keySize localKey remoteKey = .bundle e) :
    ∃ lk rk, localKey = some lk ∧ remoteKey = some rk ∧
      (∃ hash, e.encrypt = .encryptRsaOAEP hash (some rk)) ∧
      (∃ hash, e.decrypt = .decryptRsaOAEP hash (some lk)) ∧
      e.signature = .signRsaPss .SHA256 (some lk) ∧
      e.verifySignature = .verifyRsaPss .SHA256 (some rk) ∧
      (∀ hash key, e.encrypt = .encryptRsaOAEP hash key → key = some rk) ∧
      (∀ hash key, e.decrypt = .decryptRsaOAEP hash key → key = some lk) ∧
      (∀ hash key, e.signature = .signRsaPss hash key → key = some lk) ∧
      (∀ hash key, e.verifySignature = .verifyRsaPss hash key → key = some rk) := by
  obtain ⟨lk, rk, hl, hr, _, _, he⟩ := asymmetric_bundle_inv keySize localKey remoteKey e h
  subst he
  refine ⟨lk, rk, hl, hr, ⟨.SHA1, rfl⟩, ⟨.SHA1, rfl⟩, rfl, rfl, ?_, ?_, ?_, ?_⟩ <;>
    · intro hash key hk
      simp only [asymmetricBundle, EncryptFn.encryptRsaOAEP.injEq,
        DecryptFn.decryptRsaOAEP.injEq, SignFn.signRsaPss.injEq,
        VerifyFn.verifyRsaPss.injEq] at hk
      exact hk.2.symm

/-- C5, at a 2048-bit local key and a 4096-bit remote key: the four closures capture the keys
as stated, and `encrypt` does not capture the local key's public half. -/
theorem asymmetric_operations_bound_to_keys_witness :
    ∃ e, newAes256Sha256RsaPssAsymmetric modulusBytes (some priv2048) (some pub4096) = .bundle e ∧
      (∃ hash, e.encrypt = .encryptRsaOAEP hash (some pub4096)) ∧
      (∃ hash, e.decrypt = .decryptRsaOAEP hash (some priv2048)) ∧
      e.signature = .signRsaPss .SHA256 (some priv2048) ∧
      e.verifySignature = .verifyRsaPss .SHA256 (some pub4096) ∧
      (∀ hash, e.encrypt ≠ .encryptRsaOAEP hash (some priv2048.PublicKey)) := by
  obtain ⟨lk, rk, hl, hr, he, hd, hs, hv, henc, _, _, _⟩ :=
    asymmetric_operations_bound_to_keys modulusBytes (some priv2048) (some pub4096) _
      asymmetric_2048_4096
  cases hl
  cases hr
  refine ⟨_, asymmetric_2048_4096, he, hd, hs, hv, ?_⟩
  intro hash hk
  have hkey := henc hash _ hk
  have hN : priv2048.PublicKey.N = pub4096.N := by
    rw [Option.some.inj hkey]
  exact absurd hN (by decide)

/-- C10: for every key pair the constructor accepts, the bundle's `encryptionURI` is
"http://opcfoundation.org/UA/security/rsa-oaep-sha2-256" and its `signatureURI` is
"http://opcfoundation.org/UA/security/rsa-pss-sha2-256". -/
theorem asymmetric_uris (keySize : PublicKey → Nat)
    (localKey : Option PrivateKey) (remoteKey : Option PublicKey) (e : EncryptionAlgorithm)
    (h : newAes256Sha256RsaPssAsymmetric keySize localKey remoteKey = .bundle e) :
    e.encryptionURI = "http://opcfoundation.org/UA/security/rsa-oaep-sha2-256" ∧
    e.signatureURI = "http://opcfoundation.org/UA/security/rsa-pss-sha2-256" := by
  obtain ⟨lk, rk, _, _, _, _, he⟩ := asymmetric_bundle_inv keySize localKey remoteKey e h
  subst he
  exact ⟨rfl, rfl⟩

/-- C10, at the 2048-bit key pair: the bundle carries the two URIs. -/
theorem asymmetric_uris_witness :
    ∃ e, newAes256Sha256RsaPssAsymmetric modulusBytes (some priv2048) (some pub2048) = .bundle e ∧
      e.encryptionURI = "http://opcfoundation.org/UA/security/rsa-oaep-sha2-256" ∧
      e.signatureURI = "http://opcfoundation.org/UA/security/rsa-pss-sha2-256" :=
  ⟨_, asymmetric_2048_2048,
    asymmetric_uris modulusBytes (some priv2048) (some pub2048) _ asymmetric_2048_2048⟩

/-! ## The symmetric constructor -/

theorem pHashBlocks_length (hmac : Bytes → Bytes) (seed : Bytes) (len : Nat)
    (hlen : ∀ m, (hmac m).length = len) (n : Nat) (a : Bytes) :
    (pHashBlocks hmac seed n a).length = n * len := by
  induction n generalizing a with
  | zero => simp [pHashBlocks]
  | succ n ih =>
    simp only [pHashBlocks, List.length_append, hlen, ih]
    ring

theorem pHash_length (hmac : Bytes → Bytes) (seed : Bytes) (len : Nat)
    (hlen : ∀ m, (hmac m).length = len) (hpos : 0 < len) (length : Nat) :
    (pHash hmac seed length).length = length := by
  simp only [pHash, List.length_take, pHashBlocks_length hmac seed len hlen]
  exact Nat.min_eq_left (Nat.le_mul_of_pos_right length hpos)

/-- With an HMAC whose output has a fixed non-zero length, `generateKeys` yields keys of
exactly the lengths asked for. -/
theorem generateKeys_lengths (hmac : Bytes → Bytes) (seed : Bytes) (len : Nat)
    (hlen : ∀ m, (hmac m).length = len) (hpos : 0 < len) (sigLen encLen blockLen : Nat) :
    (generateKeys hmac seed sigLen encLen blockLen).signing.length = sigLen ∧
    (generateKeys hmac seed sigLen encLen blockLen).encryption.length = encLen ∧
    (generateKeys hmac seed sigLen encLen blockLen).iv.length = blockLen := by
  simp only [generateKeys, List.length_take, List.length_drop,
    pHash_length hmac seed len hlen hpos]
  omega

/-- The toy digest has the digest length of its hash. -/
theorem toyHmac_length (h : Hash) (key msg : Bytes) : (toyHmac h key msg).length = h.Size := by
  simp [toyHmac]

/-- With the toy digest and the nonces 32×0x00 and 32×0x01, the keys of a direction have the
lengths 32, 32 and 16. -/
theorem generateKeys_toy_lengths :
    (generateKeys (computeHmac toyCrypto .SHA256 nonceZeros) nonceOnes 32 32 16).signing.length
      = 32 ∧
    (generateKeys (computeHmac toyCrypto .SHA256 nonceZeros) nonceOnes 32 32 16).encryption.length
      = 32 ∧
    (generateKeys (computeHmac toyCrypto .SHA256 nonceZeros) nonceOnes 32 32 16).iv.length
      = 16 :=
  generateKeys_lengths _ _ 32 (fun m => toyHmac_length .SHA256 nonceZeros m) (by decide) 32 32 16

/-- C6: for all nonces, with `localKeys` and `remoteKeys` derived as the constructor derives
them, the returned bundle encrypts with AES-256-CBC under `remoteKeys.encryption` and
`remoteKeys.iv`, decrypts with AES-256-CBC under `localKeys.encryption` and `localKeys.iv`,
signs with HMAC-SHA256 under `remoteKeys.signing` and verifies with HMAC-SHA256 under
`localKeys.signing`. -/
theorem symmetric_operations_use_direction_keys (c : Crypto) (minPaddingAES : Nat)
    (localNonce remoteNonce : Bytes) :
    ∃ e, newAes256Sha256RsaPssSymmetric c minPaddingAES localNonce remoteNonce = .bundle e ∧
      e.encrypt = .encryptAES 256
        (generateKeys (computeHmac c .SHA256 remoteNonce) localNonce 32 32 16).iv
        (generateKeys (computeHmac c .SHA256 remoteNonce) localNonce 32 32 16).encryption ∧
      e.decrypt = .decryptAES 256
        (generateKeys (computeHmac c .SHA256 localNonce) remoteNonce 32 32 16).iv
        (generateKeys (computeHmac c .SHA256 localNonce) remoteNonce 32 32 16).encryption ∧
      e.signature = .computeHmac .SHA256
        (generateKeys (computeHmac c .SHA256 remoteNonce) localNonce 32 32 16).signing ∧
      e.verifySignature = .verifyHmac .SHA256
        (generateKeys (computeHmac c .SHA256 localNonce) remoteNonce 32 32 16).signing :=
  ⟨_, rfl, rfl, rfl, rfl, rfl⟩

/-- C7: symmetric duality. When side A builds the bundle from `(n1, n2)` and side B from
`(n2, n1)`, the key and IV A encrypts with are the key and IV B decrypts with, the key A
signs with is the key B verifies with, the same holds with A and B exchanged, and B accepts
the signature A computes over any `x`, as A accepts B's. -/
theorem symmetric_duality (c : Crypto) (minPaddingAES : Nat) (n1 n2 x : Bytes) :
    ∃ a b, newAes256Sha256RsaPssSymmetric c minPaddingAES n1 n2 = .bundle a ∧
      newAes256Sha256RsaPssSymmetric c minPaddingAES n2 n1 = .bundle b ∧
      (∃ iv key, a.encrypt = .encryptAES 256 iv key ∧ b.decrypt = .decryptAES 256 iv key) ∧
      (∃ iv key, b.encrypt = .encryptAES 256 iv key ∧ a.decrypt = .decryptAES 256 iv key) ∧
      (∃ key, a.signature = .computeHmac .SHA256 key ∧
        b.verifySignature = .verifyHmac .SHA256 key) ∧
      (∃ key, b.signature = .computeHmac .SHA256 key ∧
        a.verifySignature = .verifyHmac .SHA256 key) ∧
      (∃ mac, a.signature.call c x = .ok mac ∧ b.verifySignature.call c x mac = .ok ()) ∧
      (∃ mac, b.signature.call c x = .ok mac ∧ a.verifySignature.call c x mac = .ok ()) := by
  refine ⟨_, _, rfl, rfl, ⟨_, _, rfl, rfl⟩, ⟨_, _, rfl, rfl⟩, ⟨_, rfl, rfl⟩, ⟨_, rfl, rfl⟩,
    ⟨_, rfl, ?_⟩, ⟨_, rfl, ?_⟩⟩ <;>
    simp [VerifyFn.call, verifyHmac, computeHmac]

/-- C8: for all nonces, the empty one included, the constructor returns a bundle and no
error; the bundle has `blockSize` 16 and `signatureLength` 32, and its signing and
encryption keys are the ones `generateKeys` derives when asked for 32 bytes each. -/
theorem symmetric_returns_bundle_with_sizes (c : Crypto) (minPaddingAES : Nat)
    (localNonce remoteNonce : Bytes) :
    ∃ e, newAes256Sha256RsaPssSymmetric c minPaddingAES localNonce remoteNonce = .bundle e ∧
      e.blockSize = 16 ∧ e.signatureLength = 32 ∧
      e.signature = .computeHmac .SHA256
        (generateKeys (computeHmac c .SHA256 remoteNonce) localNonce 32 32 16).signing ∧
      e.verifySignature = .verifyHmac .SHA256
        (generateKeys (computeHmac c .SHA256 localNonce) remoteNonce 32 32 16).signing ∧
      (∃ iv, e.encrypt = .encryptAES 256 iv
        (generateKeys (computeHmac c .SHA256 remoteNonce) localNonce 32 32 16).encryption) ∧
      (∃ iv, e.decrypt = .decryptAES 256 iv
        (generateKeys (computeHmac c .SHA256 localNonce) remoteNonce 32 32 16).encryption) :=
  ⟨_, rfl, rfl, rfl, rfl, rfl, ⟨_, rfl⟩, ⟨_, rfl⟩⟩

/-- C9: for all nonces, the `encryptionURI` of the symmetric bundle is the RSA-OAEP URI
"http://opcfoundation.org/UA/security/rsa-oaep-sha2-256" of the asymmetric bundle, not the
AES256-CBC URI "http://www.w3.org/2001/04/xmlenc#aes256-cbc". -/
theorem symmetric_encryptionURI_is_rsa_oaep (c : Crypto) (minPaddingAES : Nat)
    (localNonce remoteNonce : Bytes) :
    ∃ e, newAes256Sha256RsaPssSymmetric c minPaddingAES localNonce remoteNonce = .bundle e ∧
      e.encryptionURI = "http://opcfoundation.org/UA/security/rsa-oaep-sha2-256" ∧
      e.encryptionURI ≠ "http://www.w3.org/2001/04/xmlenc#aes256-cbc" ∧
      (∃ iv key, e.encrypt = .encryptAES 256 iv key) := by
  refine ⟨_, rfl, rfl, ?_, ⟨_, _, rfl⟩⟩
  show ("http://opcfoundation.org/UA/security/rsa-oaep-sha2-256" : String) ≠
    "http://www.w3.org/2001/04/xmlenc#aes256-cbc"
  decide

/-- C17: with a nil local key the constructor never returns a bundle. When the remote key
passes its guard, the guards are skipped or passed, the fields are filled, and
`keySize(&localKey.PublicKey)` on line 108 reads through the nil pointer: the call ends in a
run-time panic, not in an error or a bundle. -/
theorem asymmetric_nil_local_key_panics (keySize : PublicKey → Nat) (rk : PublicKey)
    (h : outOfRange (keySize rk) = false) :
    newAes256Sha256RsaPssAsymmetric keySize none (some rk) = .panic ∧
    (∀ e, newAes256Sha256RsaPssAsymmetric keySize none (some rk) ≠ .bundle e) ∧
    (∀ msg, newAes256Sha256RsaPssAsymmetric keySize none (some rk) ≠ .error msg) := by
  have hp : newAes256Sha256RsaPssAsymmetric keySize none (some rk) = .panic := by
    simp [newAes256Sha256RsaPssAsymmetric, h]
  refine ⟨hp, ?_, ?_⟩ <;>
    · intro x hx
      rw [hp] at hx
      cases hx

/-- C17, at a nil local key and the 2048-bit remote key: the call panics. -/
theorem asymmetric_nil_local_key_panics_witness :
    newAes256Sha256RsaPssAsymmetric modulusBytes none (some pub2048) = .panic :=
  (asymmetric_nil_local_key_panics modulusBytes pub2048
    (by rw [modulusBytes_pub2048]; rfl)).1

end Securitypolicy

namespace Services

theorem putLE_length (w n : Nat) : (putLE w n).length = w := by
  induction w generalizing n with
  | zero => rfl
  | succ w ih => simp [putLE, ih]

theorem leValue_putLE (w n : Nat) : leValue (putLE w n) = n % 256 ^ w := by
  induction w generalizing n with
  | zero => simp [putLE, leValue, Nat.mod_one]
  | succ w ih =>
    simp only [putLE, leValue, ih, Fin.ofNat, Nat.pow_succ]
    have h := Nat.mod_mul_right_div_self n 256 (256 ^ w)
    have h2 := Nat.div_add_mod (n % (256 * 256 ^ w)) 256
    have h3 : n % (256 * 256 ^ w) % 256 = n % 256 := Nat.mod_mul_right_mod n 256 (256 ^ w)
    rw [Nat.mul_comm (256 ^ w) 256]
    omega

theorem putLE_leValue (bs : Bytes) : putLE bs.length (leValue bs) = bs := by
  induction bs with
  | nil => rfl
  | cons b bs ih =>
    simp only [List.length_cons, putLE, leValue]
    have h1 : (b.val + 256 * leValue bs) / 256 = leValue bs := by omega
    have h2 : (Fin.ofNat (b.val + 256 * leValue bs) : Fin 256) = b := by
      apply Fin.ext
      simp only [Fin.ofNat]
      omega
    rw [h1, h2, ih]

theorem leValue_lt (bs : Bytes) : leValue bs < 256 ^ bs.length := by
  induction bs with
  | nil => simp [leValue]
  | cons b bs ih =>
    simp only [leValue, List.length_cons, Nat.pow_succ]
    have := b.isLt
    omega

theorem readBytes_append (x rest : Bytes) : readBytes x.length (x ++ rest) = some (x, rest) := by
  simp [readBytes]

theorem readBytes_exact (n : Nat) (b x rest : Bytes) (h : readBytes n b = some (x, rest)) :
    x.length = n ∧ b = x ++ rest := by
  simp only [readBytes] at h
  split at h
  · simp only [Option.some.injEq, Prod.mk.injEq] at h
    obtain ⟨rfl, rfl⟩ := h
    simp [List.length_take, *]
  · simp at h

theorem getLE_putLE (w n : Nat) (rest : Bytes) (h : n < 256 ^ w) :
    getLE w (putLE w n ++ rest) = some (n, rest) := by
  have h1 := readBytes_append (putLE w n) rest
  rw [putLE_length] at h1
  simp [getLE, h1, leValue_putLE, Nat.mod_eq_of_lt h]

theorem getLE_exact (w : Nat) (b : Bytes) (n : Nat) (rest : Bytes)
    (h : getLE w b = some (n, rest)) : n < 256 ^ w ∧ b = putLE w n ++ rest := by
  simp only [getLE] at h
  split at h
  · rename_i x r hx
    simp only [Option.some.injEq, Prod.mk.injEq] at h
    obtain ⟨rfl, rfl⟩ := h
    obtain ⟨hl, hb⟩ := readBytes_exact _ _ _ _ hx
    subst hl
    exact ⟨leValue_lt x, by rw [putLE_leValue]; exact hb⟩
  · simp at h

theorem encodeByteString_length (v : ByteString) :
    (encodeByteString v).length = lenByteString v := by
  cases v <;> simp [encodeByteString, lenByteString, putLE_length]

theorem decodeByteString_encodeByteString (v : ByteString) (rest : Bytes)
    (h : wfByteString v = true) :
    decodeByteString (encodeByteString v ++ rest) = some (v, rest) := by
  cases v with
  | none =>
    simp [decodeByteString, encodeByteString, getLE_putLE 4 nullLength rest (by decide)]
  | some v =>
    simp only [wfByteString, decide_eq_true_eq] at h
    have h1 : v.length < 256 ^ 4 := by norm_num; omega
    have h2 : v.length ≠ nullLength := by simp only [nullLength]; omega
    have h3 : ¬ 2147483648 ≤ v.length := by omega
    simp [decodeByteString, encodeByteString, List.append_assoc, getLE_putLE 4 _ _ h1, h2, h3,
      readBytes_append]

theorem decodeByteString_exact (b : Bytes) (v : ByteString) (rest : Bytes)
    (h : decodeByteString b = some (v, rest)) :
    wfByteString v = true ∧ b = encodeByteString v ++ rest := by
  simp only [decodeByteString] at h
  split at h
  · simp at h
  · rename_i n r hn
    obtain ⟨_, hb⟩ := getLE_exact _ _ _ _ hn
    split at h
    · rename_i hnull
      simp only [Option.some.injEq, Prod.mk.injEq] at h
      obtain ⟨rfl, rfl⟩ := h
      subst hnull
      exact ⟨rfl, hb⟩
    · split at h
      · simp at h
      · split at h
        · rename_i x r2 hx
          simp only [Option.some.injEq, Prod.mk.injEq] at h
          obtain ⟨rfl, rfl⟩ := h
          obtain ⟨hl, hr⟩ := readBytes_exact _ _ _ _ hx
          subst hl
          refine ⟨?_, ?_⟩
          · simp only [wfByteString, decide_eq_true_eq]; omega
          · simp [encodeByteString, hb, hr]
        · simp at h

theorem encodeString_length (v : UAString) : (encodeString v).length = lenByteString v :=
  encodeByteString_length v

theorem decodeString_encodeString (v : UAString) (rest : Bytes) (h : wfString v = true) :
    decodeString (encodeString v ++ rest) = some (v, rest) := by
  simp only [wfString, Bool.and_eq_true] at h
  simp [decodeString, encodeString, decodeByteString_encodeByteString v rest h.1, h.2]

theorem decodeString_exact (b : Bytes) (v : UAString) (rest : Bytes)
    (h : decodeString b = some (v, rest)) :
    wfString v = true ∧ b = encodeString v ++ rest := by
  simp only [decodeString] at h
  split at h
  · simp at h
  · rename_i s r hs
    split at h
    · rename_i hv
      simp only [Option.some.injEq, Prod.mk.injEq] at h
      obtain ⟨rfl, rfl⟩ := h
      obtain ⟨hw, hb⟩ := decodeByteString_exact _ _ _ hs
      exact ⟨by simp [wfString, hw, hv], hb⟩
    · simp at h

theorem encodeAll_length {α : Type} (enc : α → Bytes) (len : α → Nat)
    (h : ∀ x, (enc x).length = len x) (xs : List α) :
    (encodeAll enc xs).length = lenAll len xs := by
  induction xs with
  | nil => rfl
  | cons x xs ih => simp [encodeAll, lenAll, h, ih]

theorem encodeArray_length {α : Type} (enc : α → Bytes) (len : α → Nat)
    (h : ∀ x, (enc x).length = len x) (xs : Option (List α)) :
    (encodeArray enc xs).length = lenArray len xs := by
  cases xs <;> simp [encodeArray, lenArray, putLE_length, encodeAll_length enc len h]

theorem decodeN_encodeAll {α : Type} (enc : α → Bytes) (dec : Decoder α) (wf : α → Bool)
    (h : ∀ x rest, wf x = true → dec (enc x ++ rest) = some (x, rest))
    (xs : List α) (rest : Bytes) (hxs : xs.all wf = true) :
    decodeN dec xs.length (encodeAll enc xs ++ rest) = some (xs, rest) := by
  induction xs with
  | nil => rfl
  | cons x xs ih =>
    simp only [List.all_cons, Bool.and_eq_true] at hxs
    simp [decodeN, encodeAll, List.append_assoc, h x _ hxs.1, ih hxs.2]

theorem decodeN_exact {α : Type} (enc : α → Bytes) (dec : Decoder α) (wf : α → Bool)
    (h : ∀ b x rest, dec b = some (x, rest) → wf x = true ∧ b = enc x ++ rest)
    (n : Nat) (b : Bytes) (xs : List α) (rest : Bytes)
    (hd : decodeN dec n b = some (xs, rest)) :
    xs.length = n ∧ xs.all wf = true ∧ b = encodeAll enc xs ++ rest := by
  induction n generalizing b xs with
  | zero =>
    simp only [decodeN, Option.some.injEq, Prod.mk.injEq] at hd
    obtain ⟨rfl, rfl⟩ := hd
    simp [encodeAll]
  | succ n ih =>
    simp only [decodeN] at hd
    split at hd
    · simp at hd
    · rename_i x r hx
      split at hd
      · simp at hd
      · rename_i ys r2 hys
        simp only [Option.some.injEq, Prod.mk.injEq] at hd
        obtain ⟨rfl, rfl⟩ := hd
        obtain ⟨hw, hb⟩ := h _ _ _ hx
        obtain ⟨hl, hall, hr⟩ := ih _ _ hys
        refine ⟨by simp [hl], by simp [hw, hall], ?_⟩
        simp [encodeAll, hb, hr]

theorem decodeArray_encodeArray {α : Type} (enc : α → Bytes) (dec : Decoder α) (wf : α → Bool)
    (h : ∀ x rest, wf x = true → dec (enc x ++ rest) = some (x, rest))
    (xs : Option (List α)) (rest : Bytes) (hxs : wfArray wf xs = true) :
    decodeArray dec (encodeArray enc xs ++ rest) = some (xs, rest) := by
  cases xs with
  | none =>
    simp [decodeArray, encodeArray, getLE_putLE 4 nullLength rest (by decide)]
  | some xs =>
    simp only [wfArray, Bool.and_eq_true, decide_eq_true_eq] at hxs
    have h1 : xs.length < 256 ^ 4 := by norm_num; omega
    have h2 : xs.length ≠ nullLength := by simp only [nullLength]; omega
    have h3 : ¬ 2147483648 ≤ xs.length := by omega
    simp [decodeArray, encodeArray, List.append_assoc, getLE_putLE 4 _ _ h1, h2, h3,
      decodeN_encodeAll enc dec wf h xs rest hxs.2]

theorem decodeArray_exact {α : Type} (enc : α → Bytes) (dec : Decoder α) (wf : α → Bool)
    (h : ∀ b x rest, dec b = some (x, rest) → wf x = true ∧ b = enc x ++ rest)
    (b : Bytes) (xs : Option (List α)) (rest : Bytes)
    (hd : decodeArray dec b = some (xs, rest)) :
    wfArray wf xs = true ∧ b = encodeArray enc xs ++ rest := by
  simp only [decodeArray] at hd
  split at hd
  · simp at hd
  · rename_i n r hn
    obtain ⟨_, hb⟩ := getLE_exact _ _ _ _ hn
    split at hd
    · rename_i hnull
      simp only [Option.some.injEq, Prod.mk.injEq] at hd
      obtain ⟨rfl, rfl⟩ := hd
      subst hnull
      exact ⟨rfl, hb⟩
    · split at hd
      · simp at hd
      · split at hd
        · rename_i ys r2 hys
          simp only [Option.some.injEq, Prod.mk.injEq] at hd
          obtain ⟨rfl, rfl⟩ := hd
          obtain ⟨hl, hall, hr⟩ := decodeN_exact enc dec wf h _ _ _ _ hys
          subst hl
          refine ⟨?_, ?_⟩
          · simp only [wfArray, Bool.and_eq_true, decide_eq_true_eq]
            exact ⟨by omega, hall⟩
          · simp [encodeArray, hb, hr]
        · simp at hd

theorem encodeGUID_length (g : GUID) : (encodeGUID g).length = 16 := by
  simp [encodeGUID, putLE_length, g.Data4.property]

theorem decodeGUID_encodeGUID (g : GUID) (rest : Bytes) (h : wfGUID g = true) :
    decodeGUID (encodeGUID g ++ rest) = some (g, rest) := by
  obtain ⟨d1, d2, d3, ⟨d4, hd4⟩⟩ := g
  simp only [wfGUID, Bool.and_eq_true, decide_eq_true_eq] at h
  obtain ⟨⟨h1, h2⟩, h3⟩ := h
  have hlen : 8 ≤ (d4 ++ rest).length := by simp [hd4]
  have ht : List.take 8 (d4 ++ rest) = d4 := by
    rw [← hd4]; exact List.take_left _ _
  have hdr : List.drop 8 (d4 ++ rest) = rest := by
    rw [← hd4]; exact List.drop_left _ _
  simp only [decodeGUID, encodeGUID, List.append_assoc,
    getLE_putLE 4 d1 _ (by norm_num; omega), getLE_putLE 2 d2 _ (by norm_num; omega),
    getLE_putLE 2 d3 _ (by norm_num; omega), hlen, dite_true]
  simp [ht, hdr]

theorem decodeGUID_exact (b : Bytes) (g : GUID) (rest : Bytes)
    (h : decodeGUID b = some (g, rest)) :
    wfGUID g = true ∧ b = encodeGUID g ++ rest := by
  simp only [decodeGUID] at h
  split at h
  · simp at h
  · rename_i d1 b1 h1
    split at h
    · simp at h
    · rename_i d2 b2 h2
      split at h
      · simp at h
      · rename_i d3 b3 h3
        split at h
        · rename_i hlen
          simp only [Option.some.injEq, Prod.mk.injEq] at h
          obtain ⟨rfl, rfl⟩ := h
          obtain ⟨hd1, hb1⟩ := getLE_exact _ _ _ _ h1
          obtain ⟨hd2, hb2⟩ := getLE_exact _ _ _ _ h2
          obtain ⟨hd3, hb3⟩ := getLE_exact _ _ _ _ h3
          refine ⟨?_, ?_⟩
          · simp only [wfGUID, Bool.and_eq_true, decide_eq_true_eq]
            norm_num at hd1 hd2 hd3
            exact ⟨⟨hd1, hd2⟩, hd3⟩
          · simp [encodeGUID, hb1, hb2, hb3]
        · simp at h

theorem encodeNodeID_length (n : NodeID) : (encodeNodeID n).length = lenNodeID n := by
  cases n <;>
    simp [encodeNodeID, lenNodeID, putLE_length, encodeString_length, encodeGUID_length,
      encodeByteString_length] <;> omega

theorem decodeNodeID_encodeNodeID (n : NodeID) (rest : Bytes) (h : wfNodeID n = true) :
    decodeNodeID (encodeNodeID n ++ rest) = some (n, rest) := by
  cases n with
  | TwoByte id =>
    simp only [wfNodeID, decide_eq_true_eq] at h
    simp [decodeNodeID, encodeNodeID, getLE_putLE 1 id _ (by norm_num; omega)]
  | FourByte ns id =>
    simp only [wfNodeID, Bool.and_eq_true, decide_eq_true_eq] at h
    simp [decodeNodeID, encodeNodeID, List.append_assoc,
      getLE_putLE 1 ns _ (by norm_num; omega), getLE_putLE 2 id _ (by norm_num; omega)]
  | Numeric ns id =>
    simp only [wfNodeID, Bool.and_eq_true, decide_eq_true_eq] at h
    simp [decodeNodeID, encodeNodeID, List.append_assoc,
      getLE_putLE 2 ns _ (by norm_num; omega), getLE_putLE 4 id _ (by norm_num; omega)]
  | Str ns id =>
    simp only [wfNodeID, Bool.and_eq_true, decide_eq_true_eq] at h
    have e : (((3 : Fin 256) : Fin 256) : Nat) = 3 := rfl
    simp [decodeNodeID, encodeNodeID, List.append_assoc, e,
      getLE_putLE 2 ns _ (by norm_num; omega), decodeString_encodeString id rest h.2]
  | Guid ns id =>
    simp only [wfNodeID, Bool.and_eq_true, decide_eq_true_eq] at h
    have e : (((4 : Fin 256) : Fin 256) : Nat) = 4 := rfl
    simp [decodeNodeID, encodeNodeID, List.append_assoc, e,
      getLE_putLE 2 ns _ (by norm_num; omega), decodeGUID_encodeGUID id rest h.2]
  | Opaque ns id =>
    simp only [wfNodeID, Bool.and_eq_true, decide_eq_true_eq] at h
    have e : (((5 : Fin 256) : Fin 256) : Nat) = 5 := rfl
    simp [decodeNodeID, encodeNodeID, List.append_assoc, e,
      getLE_putLE 2 ns _ (by norm_num; omega), decodeByteString_encodeByteString id rest h.2]

theorem fin256_eq_of_val (tag : Fin 256) (k : Nat) (hk : k < 256) (h : tag.val = k) :
    tag = ⟨k, hk⟩ :=
  Fin.ext h

theorem decodeNodeID_exact (b : Bytes) (n : NodeID) (rest : Bytes)
    (h : decodeNodeID b = some (n, rest)) :
    wfNodeID n = true ∧ b = encodeNodeID n ++ rest := by
  cases b with
  | nil => simp [decodeNodeID] at h
  | cons tag b =>
    simp only [decodeNodeID] at h
    split at h
    · rename_i htag
      have ht := fin256_eq_of_val tag 0 (by decide) htag
      subst ht
      split at h
      · rename_i id r hid
        simp only [Option.some.injEq, Prod.mk.injEq] at h
        obtain ⟨rfl, rfl⟩ := h
        obtain ⟨h1, hb⟩ := getLE_exact _ _ _ _ hid
        norm_num at h1
        exact ⟨by simp [wfNodeID, h1], by simp [encodeNodeID, hb]⟩
      · simp at h
    · split at h
      · rename_i htag
        have ht := fin256_eq_of_val tag 1 (by decide) htag
        subst ht
        split at h
        · simp at h
        · rename_i ns b1 hns
          split at h
          · rename_i id r hid
            simp only [Option.some.injEq, Prod.mk.injEq] at h
            obtain ⟨rfl, rfl⟩ := h
            obtain ⟨h1, hb1⟩ := getLE_exact _ _ _ _ hns
            obtain ⟨h2, hb2⟩ := getLE_exact _ _ _ _ hid
            norm_num at h1 h2
            exact ⟨by simp [wfNodeID, h1, h2], by simp [encodeNodeID, hb1, hb2]⟩
          · simp at h
      · split at h
        · simp at h
        · rename_i ns b1 hns
          obtain ⟨h1, hb1⟩ := getLE_exact _ _ _ _ hns
          norm_num at h1
          split at h
          · rename_i htag
            have ht := fin256_eq_of_val tag 2 (by decide) htag
            subst ht
            split at h
            · rename_i id r hid
              simp only [Option.some.injEq, Prod.mk.injEq] at h
              obtain ⟨rfl, rfl⟩ := h
              obtain ⟨h2, hb2⟩ := getLE_exact _ _ _ _ hid
              norm_num at h2
              exact ⟨by simp [wfNodeID, h1, h2], by simp [encodeNodeID, hb1, hb2]⟩
            · simp at h
          · split at h
            · rename_i htag
              have ht := fin256_eq_of_val tag 3 (by decide) htag
              subst ht
              split at h
              · rename_i id r hid
                simp only [Option.some.injEq, Prod.mk.injEq] at h
                obtain ⟨rfl, rfl⟩ := h
                obtain ⟨h2, hb2⟩ := decodeString_exact _ _ _ hid
                exact ⟨by simp [wfNodeID, h1, h2], by simp [encodeNodeID, hb1, hb2]⟩
              · simp at h
            · split at h
              · rename_i htag
                have ht := fin256_eq_of_val tag 4 (by decide) htag
                subst ht
                split at h
                · rename_i id r hid
                  simp only [Option.some.injEq, Prod.mk.injEq] at h
                  obtain ⟨rfl, rfl⟩ := h
                  obtain ⟨h2, hb2⟩ := decodeGUID_exact _ _ _ hid
                  exact ⟨by simp [wfNodeID, h1, h2], by simp [encodeNodeID, hb1, hb2]⟩
                · simp at h
              · split at h
                · rename_i htag
                  have ht := fin256_eq_of_val tag 5 (by decide) htag
                  subst ht
                  split at h
                  · rename_i id r hid
                    simp only [Option.some.injEq, Prod.mk.injEq] at h
                    obtain ⟨rfl, rfl⟩ := h
                    obtain ⟨h2, hb2⟩ := decodeByteString_exact _ _ _ hid
                    exact ⟨by simp [wfNodeID, h1, h2], by simp [encodeNodeID, hb1, hb2]⟩
                  · simp at h
                · simp at h

theorem encodeOpt_length {α : Type} (enc : α → Bytes) (len : α → Nat)
    (h : ∀ x, (enc x).length = len x) (v : Option α) :
    (encodeOpt enc v).length = lenOpt len v := by
  cases v <;> simp [encodeOpt, lenOpt, h]

theorem decodeOpt_encodeOpt {α : Type} (enc : α → Bytes) (dec : Decoder α) (wf : α → Bool)
    (h : ∀ x rest, wf x = true → dec (enc x ++ rest) = some (x, rest))
    (v : Option α) (rest : Bytes) (hv : wfOpt wf v = true) :
    decodeOpt dec v.isSome (encodeOpt enc v ++ rest) = some (v, rest) := by
  cases v with
  | none => simp [decodeOpt, encodeOpt]
  | some v =>
    simp only [wfOpt] at hv
    simp [decodeOpt, encodeOpt, h v rest hv]

theorem decodeOpt_exact {α : Type} (enc : α → Bytes) (dec : Decoder α) (wf : α → Bool)
    (h : ∀ b x rest, dec b = some (x, rest) → wf x = true ∧ b = enc x ++ rest)
    (present : Bool) (b : Bytes) (v : Option α) (rest : Bytes)
    (hd : decodeOpt dec present b = some (v, rest)) :
    v.isSome = present ∧ wfOpt wf v = true ∧ b = encodeOpt enc v ++ rest := by
  cases present with
  | false =>
    simp only [decodeOpt, Bool.false_eq_true, if_false, Option.some.injEq,
      Prod.mk.injEq] at hd
    obtain ⟨rfl, rfl⟩ := hd
    simp [wfOpt, encodeOpt]
  | true =>
    simp only [decodeOpt, if_true] at hd
    split at hd
    · rename_i x r hx
      simp only [Option.some.injEq, Prod.mk.injEq] at hd
      obtain ⟨rfl, rfl⟩ := hd
      obtain ⟨hw, hb⟩ := h _ _ _ hx
      exact ⟨rfl, by simp [wfOpt, hw], by simp [encodeOpt, hb]⟩
    · simp at hd

theorem encodeInt32_length (n : Int) : (encodeInt32 n).length = 4 :=
  putLE_length 4 _

theorem decodeInt32_encodeInt32 (n : Int) (rest : Bytes) (h : wfInt32 n = true) :
    decodeInt32 (encodeInt32 n ++ rest) = some (n, rest) := by
  simp only [wfInt32, Bool.and_eq_true, decide_eq_true_eq] at h
  have hlt : (n % 4294967296).toNat < 256 ^ 4 := by norm_num; omega
  simp only [decodeInt32, encodeInt32, getLE_putLE 4 _ rest hlt, Option.some.injEq,
    Prod.mk.injEq, and_true]
  split <;> omega

theorem decodeInt32_exact (b : Bytes) (n : Int) (rest : Bytes)
    (h : decodeInt32 b = some (n, rest)) :
    wfInt32 n = true ∧ b = encodeInt32 n ++ rest := by
  simp only [decodeInt32] at h
  split at h
  · simp at h
  · rename_i k r hk
    simp only [Option.some.injEq, Prod.mk.injEq] at h
    obtain ⟨rfl, rfl⟩ := h
    obtain ⟨hlt, hb⟩ := getLE_exact _ _ _ _ hk
    norm_num at hlt
    refine ⟨?_, ?_⟩
    · simp only [wfInt32, Bool.and_eq_true, decide_eq_true_eq]
      split <;> omega
    · have e : ((if k < 2147483648 then (k : Int)
          else (k : Int) - 4294967296) % 4294967296).toNat = k := by
        split <;> omega
      simp only [encodeInt32, e]
      exact hb

theorem decodeUint32_encodeUint32 (n : Nat) (rest : Bytes) (h : wfUint32 n = true) :
    getLE 4 (putLE 4 n ++ rest) = some (n, rest) := by
  simp only [wfUint32, decide_eq_true_eq] at h
  exact getLE_putLE 4 n rest (by norm_num; omega)

theorem decodeUint32_exact (b : Bytes) (n : Nat) (rest : Bytes)
    (h : getLE 4 b = some (n, rest)) : wfUint32 n = true ∧ b = putLE 4 n ++ rest := by
  obtain ⟨hlt, hb⟩ := getLE_exact 4 b n rest h
  norm_num at hlt
  exact ⟨by simp [wfUint32, hlt], hb⟩

theorem getLE1_put (n : Nat) (rest : Bytes) (h : n < 256) :
    getLE 1 (putLE 1 n ++ rest) = some (n, rest) :=
  getLE_putLE 1 n rest (by norm_num; omega)

theorem getLE1_exact (b : Bytes) (n : Nat) (rest : Bytes) (h : getLE 1 b = some (n, rest)) :
    n < 256 ∧ b = putLE 1 n ++ rest := by
  have := getLE_exact 1 b n rest h
  norm_num at this
  exact this

theorem encodeExtensionObject_length (e : ExtensionObject) :
    (encodeExtensionObject e).length = lenExtensionObject e := by
  simp only [encodeExtensionObject, lenExtensionObject, List.length_append, putLE_length,
    encodeNodeID_length, encodeOpt_length encodeByteString lenByteString encodeByteString_length]

theorem decodeExtensionObject_encodeExtensionObject (e : ExtensionObject) (rest : Bytes)
    (h : wfExtensionObject e = true) :
    decodeExtensionObject (encodeExtensionObject e ++ rest) = some (e, rest) := by
  obtain ⟨t, mask, body⟩ := e
  simp only [wfExtensionObject, Bool.and_eq_true, decide_eq_true_eq, beq_iff_eq] at h
  obtain ⟨⟨⟨h1, h2⟩, h3⟩, h4⟩ := h
  simp only [decodeExtensionObject, encodeExtensionObject, List.append_assoc,
    Option.bind_eq_bind, Option.some_bind, decodeNodeID_encodeNodeID _ _ h1,
    getLE1_put _ _ h2, ← h3,
    decodeOpt_encodeOpt encodeByteString decodeByteString wfByteString
      decodeByteString_encodeByteString _ _ h4]

theorem decodeExtensionObject_exact (b : Bytes) (e : ExtensionObject) (rest : Bytes)
    (h : decodeExtensionObject b = some (e, rest)) :
    wfExtensionObject e = true ∧ b = encodeExtensionObject e ++ rest := by
  simp only [decodeExtensionObject, Option.bind_eq_bind, Option.bind_eq_some, Prod.exists,
    Option.some.injEq, Prod.mk.injEq] at h
  obtain ⟨a1, r1, h1, a2, r2, h2, a3, r3, h3, rfl, rfl⟩ := h
  obtain ⟨w1, e1⟩ := decodeNodeID_exact _ _ _ h1
  obtain ⟨w2, e2⟩ := getLE1_exact _ _ _ h2
  obtain ⟨p3, w3, e3⟩ :=
    decodeOpt_exact encodeByteString decodeByteString wfByteString decodeByteString_exact
      _ _ _ _ h3
  exact ⟨by simp [wfExtensionObject, w1, w2, w3, p3],
    by simp [encodeExtensionObject, e1, e2, e3]⟩

theorem encodeDiagnosticFields_length (f : DiagnosticFields) :
    (encodeDiagnosticFields f).length = lenDiagnosticFields f := by
  simp only [encodeDiagnosticFields, lenDiagnosticFields, List.length_append, putLE_length,
    encodeOpt_length encodeInt32 (fun _ => 4) encodeInt32_length,
    encodeOpt_length encodeString lenByteString encodeString_length,
    encodeOpt_length (putLE 4) (fun _ => 4) (putLE_length 4)]

theorem lenDiagnosticFields_pos (f : DiagnosticFields) : 1 ≤ lenDiagnosticFields f := by
  simp only [lenDiagnosticFields]
  omega

theorem decodeDiagnosticFields_encodeDiagnosticFields (f : DiagnosticFields) (rest : Bytes)
    (h : wfDiagnosticFields f = true) :
    decodeDiagnosticFields (encodeDiagnosticFields f ++ rest) = some (f, rest) := by
  obtain ⟨mask, a1, a2, a3, a4, a5, a6⟩ := f
  simp only [wfDiagnosticFields, Bool.and_eq_true, decide_eq_true_eq, beq_iff_eq] at h
  obtain ⟨⟨⟨⟨⟨⟨⟨⟨⟨⟨⟨⟨h0, p1⟩, p2⟩, p3⟩, p4⟩, p5⟩, p6⟩, w1⟩, w2⟩, w3⟩, w4⟩, w5⟩, w6⟩ := h
  simp only [decodeDiagnosticFields, encodeDiagnosticFields, List.append_assoc,
    Option.bind_eq_bind, Option.some_bind, getLE1_put _ _ h0, ← p1, ← p2, ← p3, ← p4, ← p5,
    ← p6,
    decodeOpt_encodeOpt encodeInt32 decodeInt32 wfInt32 decodeInt32_encodeInt32 _ _ w1,
    decodeOpt_encodeOpt encodeInt32 decodeInt32 wfInt32 decodeInt32_encodeInt32 _ _ w2,
    decodeOpt_encodeOpt encodeInt32 decodeInt32 wfInt32 decodeInt32_encodeInt32 _ _ w3,
    decodeOpt_encodeOpt encodeInt32 decodeInt32 wfInt32 decodeInt32_encodeInt32 _ _ w4,
    decodeOpt_encodeOpt encodeString decodeString wfString decodeString_encodeString _ _ w5,
    decodeOpt_encodeOpt (putLE 4) (getLE 4) wfUint32 decodeUint32_encodeUint32 _ _ w6]

theorem decodeDiagnosticFields_exact (b : Bytes) (f : DiagnosticFields) (rest : Bytes)
    (h : decodeDiagnosticFields b = some (f, rest)) :
    wfDiagnosticFields f = true ∧ b = encodeDiagnosticFields f ++ rest := by
  simp only [decodeDiagnosticFields, Option.bind_eq_bind, Option.bind_eq_some, Prod.exists,
    Option.some.injEq, Prod.mk.injEq] at h
  obtain ⟨m, r0, h0, a1, r1, h1, a2, r2, h2, a3, r3, h3, a4, r4, h4, a5, r5, h5,
    a6, r6, h6, rfl, rfl⟩ := h
  obtain ⟨w0, e0⟩ := getLE1_exact _ _ _ h0
  obtain ⟨p1, w1, e1⟩ :=
    decodeOpt_exact encodeInt32 decodeInt32 wfInt32 decodeInt32_exact _ _ _ _ h1
  obtain ⟨p2, w2, e2⟩ :=
    decodeOpt_exact encodeInt32 decodeInt32 wfInt32 decodeInt32_exact _ _ _ _ h2
  obtain ⟨p3, w3, e3⟩ :=
    decodeOpt_exact encodeInt32 decodeInt32 wfInt32 decodeInt32_exact _ _ _ _ h3
  obtain ⟨p4, w4, e4⟩ :=
    decodeOpt_exact encodeInt32 decodeInt32 wfInt32 decodeInt32_exact _ _ _ _ h4
  obtain ⟨p5, w5, e5⟩ :=
    decodeOpt_exact encodeString decodeString wfString decodeString_exact _ _ _ _ h5
  obtain ⟨p6, w6, e6⟩ :=
    decodeOpt_exact (putLE 4) (getLE 4) wfUint32 decodeUint32_exact _ _ _ _ h6
  exact ⟨by simp [wfDiagnosticFields, w0, w1, w2, w3, w4, w5, w6, p1, p2, p3, p4, p5, p6],
    by simp [encodeDiagnosticFields, e0, e1, e2, e3, e4, e5, e6]⟩

theorem encodeDiagnosticInfo_length (d : DiagnosticInfo) :
    (encodeDiagnosticInfo d).length = lenDiagnosticInfo d := by
  induction d with
  | single f => simp [encodeDiagnosticInfo, lenDiagnosticInfo, encodeDiagnosticFields_length]
  | withInner f inner ih =>
    simp [encodeDiagnosticInfo, lenDiagnosticInfo, encodeDiagnosticFields_length, ih]

theorem decodeDiagnosticLevels_encodeDiagnosticInfo (d : DiagnosticInfo) (fuel : Nat)
    (rest : Bytes) (h : wfDiagnosticInfo d = true) (hfuel : lenDiagnosticInfo d ≤ fuel) :
    decodeDiagnosticLevels fuel (encodeDiagnosticInfo d ++ rest) = some (d, rest) := by
  induction d generalizing fuel rest with
  | single f =>
    simp only [wfDiagnosticInfo, Bool.and_eq_true, Bool.not_eq_true'] at h
    have hpos := lenDiagnosticFields_pos f
    simp only [lenDiagnosticInfo] at hfuel
    obtain ⟨n, rfl⟩ : ∃ n, fuel = n + 1 := ⟨fuel - 1, by omega⟩
    simp [decodeDiagnosticLevels, encodeDiagnosticInfo,
      decodeDiagnosticFields_encodeDiagnosticFields f rest h.1, h.2]
  | withInner f inner ih =>
    simp only [wfDiagnosticInfo, Bool.and_eq_true] at h
    have hpos := lenDiagnosticFields_pos f
    simp only [lenDiagnosticInfo] at hfuel
    obtain ⟨n, rfl⟩ : ∃ n, fuel = n + 1 := ⟨fuel - 1, by omega⟩
    simp [decodeDiagnosticLevels, encodeDiagnosticInfo, List.append_assoc,
      decodeDiagnosticFields_encodeDiagnosticFields f _ h.1.1, h.1.2,
      ih n rest h.2 (by omega)]

theorem decodeDiagnosticInfo_encodeDiagnosticInfo (d : DiagnosticInfo) (rest : Bytes)
    (h : wfDiagnosticInfo d = true) :
    decodeDiagnosticInfo (encodeDiagnosticInfo d ++ rest) = some (d, rest) := by
  apply decodeDiagnosticLevels_encodeDiagnosticInfo d _ rest h
  rw [List.length_append, encodeDiagnosticInfo_length]
  omega

theorem decodeDiagnosticLevels_exact (fuel : Nat) (b : Bytes) (d : DiagnosticInfo)
    (rest : Bytes) (h : decodeDiagnosticLevels fuel b = some (d, rest)) :
    wfDiagnosticInfo d = true ∧ b = encodeDiagnosticInfo d ++ rest := by
  induction fuel generalizing b d with
  | zero => simp [decodeDiagnosticLevels] at h
  | succ n ih =>
    simp only [decodeDiagnosticLevels] at h
    split at h
    · simp at h
    · rename_i f r hf
      obtain ⟨wf, ef⟩ := decodeDiagnosticFields_exact _ _ _ hf
      split at h
      · rename_i hbit
        split at h
        · rename_i inner r2 hinner
          simp only [Option.some.injEq, Prod.mk.injEq] at h
          obtain ⟨rfl, rfl⟩ := h
          obtain ⟨wi, ei⟩ := ih _ _ hinner
          exact ⟨by simp [wfDiagnosticInfo, wf, hbit, wi],
            by simp [encodeDiagnosticInfo, ef, ei]⟩
        · simp at h
      · rename_i hbit
        simp only [Option.some.injEq, Prod.mk.injEq] at h
        obtain ⟨rfl, rfl⟩ := h
        exact ⟨by simp [wfDiagnosticInfo, wf, hbit], by simp [encodeDiagnosticInfo, ef]⟩

theorem decodeDiagnosticInfo_exact (b : Bytes) (d : DiagnosticInfo) (rest : Bytes)
    (h : decodeDiagnosticInfo b = some (d, rest)) :
    wfDiagnosticInfo d = true ∧ b = encodeDiagnosticInfo d ++ rest :=
  decodeDiagnosticLevels_exact _ b d rest h

/-- The bound on the levels does not show: any two bounds that are at least the number of
bytes give the same reading. -/
theorem decodeDiagnosticLevels_fuel (fuel fuel2 : Nat) (b : Bytes)
    (h : b.length ≤ fuel) (h2 : b.length ≤ fuel2) :
    decodeDiagnosticLevels fuel b = decodeDiagnosticLevels fuel2 b := by
  induction fuel generalizing fuel2 b with
  | zero =>
    have hb : b = [] := List.eq_nil_of_length_eq_zero (by omega)
    subst hb
    cases fuel2 with
    | zero => rfl
    | succ m => simp [decodeDiagnosticLevels, decodeDiagnosticFields, getLE, readBytes]
  | succ n ih =>
    cases fuel2 with
    | zero =>
      have hb : b = [] := List.eq_nil_of_length_eq_zero (by omega)
      subst hb
      simp [decodeDiagnosticLevels, decodeDiagnosticFields, getLE, readBytes]
    | succ m =>
      simp only [decodeDiagnosticLevels]
      cases hf : decodeDiagnosticFields b with
      | none => rfl
      | some p =>
        obtain ⟨f, rest⟩ := p
        obtain ⟨_, ef⟩ := decodeDiagnosticFields_exact _ _ _ hf
        have hlen : rest.length < b.length := by
          have hl := congrArg List.length ef
          rw [List.length_append, encodeDiagnosticFields_length] at hl
          have := lenDiagnosticFields_pos f
          omega
        simp only [ih m rest (by omega) (by omega)]

theorem encodeLocalizedText_length (l : LocalizedText) :
    (encodeLocalizedText l).length = lenLocalizedText l := by
  simp only [encodeLocalizedText, lenLocalizedText, List.length_append, putLE_length,
    encodeOpt_length encodeString lenByteString encodeString_length]

theorem decodeLocalizedText_encodeLocalizedText (l : LocalizedText) (rest : Bytes)
    (h : wfLocalizedText l = true) :
    decodeLocalizedText (encodeLocalizedText l ++ rest) = some (l, rest) := by
  obtain ⟨mask, locale, text⟩ := l
  simp only [wfLocalizedText, Bool.and_eq_true, decide_eq_true_eq, beq_iff_eq] at h
  obtain ⟨⟨⟨⟨h0, p1⟩, p2⟩, w1⟩, w2⟩ := h
  simp only [decodeLocalizedText, encodeLocalizedText, List.append_assoc,
    Option.bind_eq_bind, Option.some_bind, getLE1_put _ _ h0, ← p1, ← p2,
    decodeOpt_encodeOpt encodeString decodeString wfString decodeString_encodeString _ _ w1,
    decodeOpt_encodeOpt encodeString decodeString wfString decodeString_encodeString _ _ w2]

theorem decodeLocalizedText_exact (b : Bytes) (l : LocalizedText) (rest : Bytes)
    (h : decodeLocalizedText b = some (l, rest)) :
    wfLocalizedText l = true ∧ b = encodeLocalizedText l ++ rest := by
  simp only [decodeLocalizedText, Option.bind_eq_bind, Option.bind_eq_some, Prod.exists,
    Option.some.injEq, Prod.mk.injEq] at h
  obtain ⟨m, r0, h0, a1, r1, h1, a2, r2, h2, rfl, rfl⟩ := h
  obtain ⟨w0, e0⟩ := getLE1_exact _ _ _ h0
  obtain ⟨p1, w1, e1⟩ :=
    decodeOpt_exact encodeString decodeString wfString decodeString_exact _ _ _ _ h1
  obtain ⟨p2, w2, e2⟩ :=
    decodeOpt_exact encodeString decodeString wfString decodeString_exact _ _ _ _ h2
  exact ⟨by simp [wfLocalizedText, w0, w1, w2, p1, p2],
    by simp [encodeLocalizedText, e0, e1, e2]⟩

theorem encodeInt64_length (n : Int) : (encodeInt64 n).length = 8 :=
  putLE_length 8 _

theorem decodeInt64_encodeInt64 (n : Int) (rest : Bytes) (h : inTickRange n = true) :
    decodeInt64 (encodeInt64 n ++ rest) = some (n, rest) := by
  simp only [inTickRange, Bool.and_eq_true, decide_eq_true_eq] at h
  have hlt : (n % 18446744073709551616).toNat < 256 ^ 8 := by norm_num; omega
  simp only [decodeInt64, encodeInt64, getLE_putLE 8 _ rest hlt, Option.some.injEq,
    Prod.mk.injEq, and_true]
  split <;> omega

theorem decodeInt64_exact (b : Bytes) (n : Int) (rest : Bytes)
    (h : decodeInt64 b = some (n, rest)) :
    inTickRange n = true ∧ b = encodeInt64 n ++ rest := by
  simp only [decodeInt64] at h
  split at h
  · simp at h
  · rename_i k r hk
    simp only [Option.some.injEq, Prod.mk.injEq] at h
    obtain ⟨rfl, rfl⟩ := h
    obtain ⟨hlt, hb⟩ := getLE_exact _ _ _ _ hk
    norm_num at hlt
    refine ⟨?_, ?_⟩
    · simp only [inTickRange, Bool.and_eq_true, decide_eq_true_eq]
      split <;> omega
    · have e : ((if k < 9223372036854775808 then (k : Int)
          else (k : Int) - 18446744073709551616) % 18446744073709551616).toNat = k := by
        split <;> omega
      simp only [encodeInt64, e]
      exact hb

theorem ticks_timeOfTicks (n : Int) : ticks (timeOfTicks n) = n := by
  simp only [ticks, timeOfTicks]
  have h : (n % 10000000).toNat * 100 / 100 = (n % 10000000).toNat := by omega
  rw [h]
  omega

theorem timeOfTicks_ticks (t : Time) (h1 : t.nsec < 1000000000) (h2 : t.nsec % 100 = 0) :
    timeOfTicks (ticks t) = t := by
  obtain ⟨s, ns⟩ := t
  simp only at h1 h2
  simp only [ticks, timeOfTicks, Time.mk.injEq]
  constructor <;> omega

theorem wfTime_timeOfTicks (n : Int) (h : inTickRange n = true) :
    wfTime (timeOfTicks n) = true := by
  simp only [wfTime, Bool.and_eq_true, decide_eq_true_eq, ticks_timeOfTicks, h, and_true]
  simp only [timeOfTicks]
  constructor <;> omega

theorem encodeTimestamp_length (t : Time) : (encodeTimestamp t).length = 8 :=
  encodeInt64_length _

theorem decodeTimestamp_encodeTimestamp (t : Time) (rest : Bytes) (h : wfTime t = true) :
    decodeTimestamp (encodeTimestamp t ++ rest) = some (t, rest) := by
  simp only [wfTime, Bool.and_eq_true, decide_eq_true_eq] at h
  obtain ⟨⟨h1, h2⟩, h3⟩ := h
  simp [decodeTimestamp, encodeTimestamp, h3, decodeInt64_encodeInt64 _ rest h3,
    timeOfTicks_ticks t h1 h2]

theorem decodeTimestamp_exact (b : Bytes) (t : Time) (rest : Bytes)
    (h : decodeTimestamp b = some (t, rest)) :
    wfTime t = true ∧ b = encodeTimestamp t ++ rest := by
  simp only [decodeTimestamp] at h
  split at h
  · simp at h
  · rename_i n r hn
    simp only [Option.some.injEq, Prod.mk.injEq] at h
    obtain ⟨rfl, rfl⟩ := h
    obtain ⟨hr, hb⟩ := decodeInt64_exact _ _ _ hn
    exact ⟨wfTime_timeOfTicks n hr, by simp [encodeTimestamp, ticks_timeOfTicks, hr, hb]⟩

theorem getLE4_put (n : Nat) (rest : Bytes) (h : n < 4294967296) :
    getLE 4 (putLE 4 n ++ rest) = some (n, rest) :=
  getLE_putLE 4 n rest (by norm_num; omega)

theorem getLE4_exact (b : Bytes) (n : Nat) (rest : Bytes) (h : getLE 4 b = some (n, rest)) :
    n < 4294967296 ∧ b = putLE 4 n ++ rest := by
  have := getLE_exact 4 b n rest h
  norm_num at this
  exact this

theorem encodeUserTokenPolicy_length (p : UserTokenPolicy) :
    (encodeUserTokenPolicy p).length = lenUserTokenPolicy p := by
  simp [encodeUserTokenPolicy, lenUserTokenPolicy, putLE_length, encodeString_length]
  omega

theorem decodeUserTokenPolicy_encodeUserTokenPolicy (p : UserTokenPolicy) (rest : Bytes)
    (h : wfUserTokenPolicy p = true) :
    decodeUserTokenPolicy (encodeUserTokenPolicy p ++ rest) = some (p, rest) := by
  simp only [wfUserTokenPolicy, Bool.and_eq_true, decide_eq_true_eq] at h
  obtain ⟨⟨⟨⟨h1, h2⟩, h3⟩, h4⟩, h5⟩ := h
  simp [decodeUserTokenPolicy, encodeUserTokenPolicy, List.append_assoc,
    decodeString_encodeString _ _ h1, getLE4_put _ _ h2, decodeString_encodeString _ _ h3,
    decodeString_encodeString _ _ h4, decodeString_encodeString _ _ h5]

theorem decodeUserTokenPolicy_exact (b : Bytes) (p : UserTokenPolicy) (rest : Bytes)
    (h : decodeUserTokenPolicy b = some (p, rest)) :
    wfUserTokenPolicy p = true ∧ b = encodeUserTokenPolicy p ++ rest := by
  simp only [decodeUserTokenPolicy, Option.bind_eq_bind, Option.bind_eq_some, Prod.exists,
    Option.some.injEq, Prod.mk.injEq] at h
  obtain ⟨a1, r1, h1, a2, r2, h2, a3, r3, h3, a4, r4, h4, a5, r5, h5, rfl, rfl⟩ := h
  obtain ⟨w1, e1⟩ := decodeString_exact _ _ _ h1
  obtain ⟨w2, e2⟩ := getLE4_exact _ _ _ h2
  obtain ⟨w3, e3⟩ := decodeString_exact _ _ _ h3
  obtain ⟨w4, e4⟩ := decodeString_exact _ _ _ h4
  obtain ⟨w5, e5⟩ := decodeString_exact _ _ _ h5
  exact ⟨by simp [wfUserTokenPolicy, w1, w2, w3, w4, w5],
    by simp [encodeUserTokenPolicy, e1, e2, e3, e4, e5]⟩

theorem getLE8_put (n : Nat) (rest : Bytes) (h : n < 18446744073709551616) :
    getLE 8 (putLE 8 n ++ rest) = some (n, rest) :=
  getLE_putLE 8 n rest (by norm_num; omega)

theorem getLE8_exact (b : Bytes) (n : Nat) (rest : Bytes) (h : getLE 8 b = some (n, rest)) :
    n < 18446744073709551616 ∧ b = putLE 8 n ++ rest := by
  have := getLE_exact 8 b n rest h
  norm_num at this
  exact this

theorem encodeApplicationDescription_length (a : ApplicationDescription) :
    (encodeApplicationDescription a).length = lenApplicationDescription a := by
  simp [encodeApplicationDescription, lenApplicationDescription, putLE_length,
    encodeString_length, encodeLocalizedText_length,
    encodeArray_length encodeString lenByteString encodeString_length]
  omega

theorem decodeApplicationDescription_encodeApplicationDescription
    (a : ApplicationDescription) (rest : Bytes) (h : wfApplicationDescription a = true) :
    decodeApplicationDescription (encodeApplicationDescription a ++ rest) = some (a, rest) := by
  simp only [wfApplicationDescription, Bool.and_eq_true, decide_eq_true_eq] at h
  obtain ⟨⟨⟨⟨⟨⟨h1, h2⟩, h3⟩, h4⟩, h5⟩, h6⟩, h7⟩ := h
  simp [decodeApplicationDescription, encodeApplicationDescription, List.append_assoc,
    decodeString_encodeString _ _ h1, decodeString_encodeString _ _ h2,
    decodeLocalizedText_encodeLocalizedText _ _ h3, getLE4_put _ _ h4,
    decodeString_encodeString _ _ h5, decodeString_encodeString _ _ h6,
    decodeArray_encodeArray encodeString decodeString wfString decodeString_encodeString _ _ h7]

theorem decodeApplicationDescription_exact (b : Bytes) (a : ApplicationDescription)
    (rest : Bytes) (h : decodeApplicationDescription b = some (a, rest)) :
    wfApplicationDescription a = true ∧ b = encodeApplicationDescription a ++ rest := by
  simp only [decodeApplicationDescription, Option.bind_eq_bind, Option.bind_eq_some,
    Prod.exists, Option.some.injEq, Prod.mk.injEq] at h
  obtain ⟨a1, r1, h1, a2, r2, h2, a3, r3, h3, a4, r4, h4, a5, r5, h5, a6, r6, h6,
    a7, r7, h7, rfl, rfl⟩ := h
  obtain ⟨w1, e1⟩ := decodeString_exact _ _ _ h1
  obtain ⟨w2, e2⟩ := decodeString_exact _ _ _ h2
  obtain ⟨w3, e3⟩ := decodeLocalizedText_exact _ _ _ h3
  obtain ⟨w4, e4⟩ := getLE4_exact _ _ _ h4
  obtain ⟨w5, e5⟩ := decodeString_exact _ _ _ h5
  obtain ⟨w6, e6⟩ := decodeString_exact _ _ _ h6
  obtain ⟨w7, e7⟩ :=
    decodeArray_exact encodeString decodeString wfString decodeString_exact _ _ _ h7
  exact ⟨by simp [wfApplicationDescription, w1, w2, w3, w4, w5, w6, w7],
    by simp [encodeApplicationDescription, e1, e2, e3, e4, e5, e6, e7]⟩

theorem encodeEndpointDescription_length (e : EndpointDescription) :
    (encodeEndpointDescription e).length = lenEndpointDescription e := by
  simp [encodeEndpointDescription, lenEndpointDescription, putLE_length,
    encodeString_length, encodeByteString_length, encodeApplicationDescription_length,
    encodeArray_length encodeUserTokenPolicy lenUserTokenPolicy encodeUserTokenPolicy_length]
  omega

theorem decodeEndpointDescription_encodeEndpointDescription
    (e : EndpointDescription) (rest : Bytes) (h : wfEndpointDescription e = true) :
    decodeEndpointDescription (encodeEndpointDescription e ++ rest) = some (e, rest) := by
  simp only [wfEndpointDescription, Bool.and_eq_true, decide_eq_true_eq] at h
  obtain ⟨⟨⟨⟨⟨⟨⟨h1, h2⟩, h3⟩, h4⟩, h5⟩, h6⟩, h7⟩, h8⟩ := h
  simp [decodeEndpointDescription, encodeEndpointDescription, List.append_assoc,
    decodeString_encodeString _ _ h1,
    decodeApplicationDescription_encodeApplicationDescription _ _ h2,
    decodeByteString_encodeByteString _ _ h3, getLE4_put _ _ h4,
    decodeString_encodeString _ _ h5,
    decodeArray_encodeArray encodeUserTokenPolicy decodeUserTokenPolicy wfUserTokenPolicy
      decodeUserTokenPolicy_encodeUserTokenPolicy _ _ h6,
    decodeString_encodeString _ _ h7, getLE1_put _ _ h8]

theorem decodeEndpointDescription_exact (b : Bytes) (e : EndpointDescription)
    (rest : Bytes) (h : decodeEndpointDescription b = some (e, rest)) :
    wfEndpointDescription e = true ∧ b = encodeEndpointDescription e ++ rest := by
  simp only [decodeEndpointDescription, Option.bind_eq_bind, Option.bind_eq_some,
    Prod.exists, Option.some.injEq, Prod.mk.injEq] at h
  obtain ⟨a1, r1, h1, a2, r2, h2, a3, r3, h3, a4, r4, h4, a5, r5, h5, a6, r6, h6,
    a7, r7, h7, a8, r8, h8, rfl, rfl⟩ := h
  obtain ⟨w1, e1⟩ := decodeString_exact _ _ _ h1
  obtain ⟨w2, e2⟩ := decodeApplicationDescription_exact _ _ _ h2
  obtain ⟨w3, e3⟩ := decodeByteString_exact _ _ _ h3
  obtain ⟨w4, e4⟩ := getLE4_exact _ _ _ h4
  obtain ⟨w5, e5⟩ := decodeString_exact _ _ _ h5
  obtain ⟨w6, e6⟩ :=
    decodeArray_exact encodeUserTokenPolicy decodeUserTokenPolicy wfUserTokenPolicy
      decodeUserTokenPolicy_exact _ _ _ h6
  obtain ⟨w7, e7⟩ := decodeString_exact _ _ _ h7
  obtain ⟨w8, e8⟩ := getLE1_exact _ _ _ h8
  exact ⟨by simp [wfEndpointDescription, w1, w2, w3, w4, w5, w6, w7, w8],
    by simp [encodeEndpointDescription, e1, e2, e3, e4, e5, e6, e7, e8]⟩

theorem encodeSignedSoftwareCertificate_length (c : SignedSoftwareCertificate) :
    (encodeSignedSoftwareCertificate c).length = lenSignedSoftwareCertificate c := by
  simp [encodeSignedSoftwareCertificate, lenSignedSoftwareCertificate,
    encodeByteString_length]

theorem decodeSignedSoftwareCertificate_encodeSignedSoftwareCertificate
    (c : SignedSoftwareCertificate) (rest : Bytes)
    (h : wfSignedSoftwareCertificate c = true) :
    decodeSignedSoftwareCertificate (encodeSignedSoftwareCertificate c ++ rest)
      = some (c, rest) := by
  simp only [wfSignedSoftwareCertificate, Bool.and_eq_true] at h
  simp [decodeSignedSoftwareCertificate, encodeSignedSoftwareCertificate, List.append_assoc,
    decodeByteString_encodeByteString _ _ h.1, decodeByteString_encodeByteString _ _ h.2]

theorem decodeSignedSoftwareCertificate_exact (b : Bytes) (c : SignedSoftwareCertificate)
    (rest : Bytes) (h : decodeSignedSoftwareCertificate b = some (c, rest)) :
    wfSignedSoftwareCertificate c = true ∧ b = encodeSignedSoftwareCertificate c ++ rest := by
  simp only [decodeSignedSoftwareCertificate, Option.bind_eq_bind, Option.bind_eq_some,
    Prod.exists, Option.some.injEq, Prod.mk.injEq] at h
  obtain ⟨a1, r1, h1, a2, r2, h2, rfl, rfl⟩ := h
  obtain ⟨w1, e1⟩ := decodeByteString_exact _ _ _ h1
  obtain ⟨w2, e2⟩ := decodeByteString_exact _ _ _ h2
  exact ⟨by simp [wfSignedSoftwareCertificate, w1, w2],
    by simp [encodeSignedSoftwareCertificate, e1, e2]⟩

theorem encodeSignatureData_length (d : SignatureData) :
    (encodeSignatureData d).length = lenSignatureData d := by
  simp [encodeSignatureData, lenSignatureData, encodeByteString_length, encodeString_length]

theorem decodeSignatureData_encodeSignatureData (d : SignatureData) (rest : Bytes)
    (h : wfSignatureData d = true) :
    decodeSignatureData (encodeSignatureData d ++ rest) = some (d, rest) := by
  simp only [wfSignatureData, Bool.and_eq_true] at h
  simp [decodeSignatureData, encodeSignatureData, List.append_assoc,
    decodeString_encodeString _ _ h.1, decodeByteString_encodeByteString _ _ h.2]

theorem decodeSignatureData_exact (b : Bytes) (d : SignatureData) (rest : Bytes)
    (h : decodeSignatureData b = some (d, rest)) :
    wfSignatureData d = true ∧ b = encodeSignatureData d ++ rest := by
  simp only [decodeSignatureData, Option.bind_eq_bind, Option.bind_eq_some,
    Prod.exists, Option.some.injEq, Prod.mk.injEq] at h
  obtain ⟨a1, r1, h1, a2, r2, h2, rfl, rfl⟩ := h
  obtain ⟨w1, e1⟩ := decodeString_exact _ _ _ h1
  obtain ⟨w2, e2⟩ := decodeByteString_exact _ _ _ h2
  exact ⟨by simp [wfSignatureData, w1, w2], by simp [encodeSignatureData, e1, e2]⟩

theorem encodeResponseHeader_length (h : ResponseHeader) :
    (encodeResponseHeader h).length = lenResponseHeader h := by
  simp [encodeResponseHeader, lenResponseHeader, putLE_length, encodeTimestamp_length,
    encodeDiagnosticInfo_length, encodeExtensionObject_length,
    encodeArray_length encodeString lenByteString encodeString_length]
  omega

theorem decodeResponseHeader_encodeResponseHeader (h : ResponseHeader) (rest : Bytes)
    (hw : wfResponseHeader h = true) :
    decodeResponseHeader (encodeResponseHeader h ++ rest) = some (h, rest) := by
  simp only [wfResponseHeader, Bool.and_eq_true, decide_eq_true_eq] at hw
  obtain ⟨⟨⟨⟨⟨h1, h2⟩, h3⟩, hd⟩, h4⟩, h5⟩ := hw
  simp only [decodeResponseHeader, encodeResponseHeader, List.append_assoc,
    Option.bind_eq_bind, Option.some_bind,
    decodeTimestamp_encodeTimestamp _ _ h1, getLE4_put _ _ h2, getLE4_put _ _ h3,
    decodeDiagnosticInfo_encodeDiagnosticInfo _ _ hd,
    decodeArray_encodeArray encodeString decodeString wfString decodeString_encodeString _ _ h4,
    decodeExtensionObject_encodeExtensionObject _ _ h5]

theorem decodeResponseHeader_exact (b : Bytes) (h : ResponseHeader) (rest : Bytes)
    (hd : decodeResponseHeader b = some (h, rest)) :
    wfResponseHeader h = true ∧ b = encodeResponseHeader h ++ rest := by
  simp only [decodeResponseHeader, Option.bind_eq_bind, Option.bind_eq_some,
    Prod.exists, Option.some.injEq, Prod.mk.injEq] at hd
  obtain ⟨a1, r1, h1, a2, r2, h2, a3, r3, h3, a4, r4, h4, a5, r5, h5, a6, r6, h6,
    rfl, rfl⟩ := hd
  obtain ⟨w1, e1⟩ := decodeTimestamp_exact _ _ _ h1
  obtain ⟨w2, e2⟩ := getLE4_exact _ _ _ h2
  obtain ⟨w3, e3⟩ := getLE4_exact _ _ _ h3
  obtain ⟨w4, e4⟩ := decodeDiagnosticInfo_exact _ _ _ h4
  obtain ⟨w5, e5⟩ :=
    decodeArray_exact encodeString decodeString wfString decodeString_exact _ _ _ h5
  obtain ⟨w6, e6⟩ := decodeExtensionObject_exact _ _ _ h6
  exact ⟨by simp [wfResponseHeader, w1, w2, w3, w4, w5, w6],
    by simp [encodeResponseHeader, e1, e2, e3, e4, e5, e6]⟩

theorem encodeCreateSessionResponse_length (m : CreateSessionResponse) :
    (encodeCreateSessionResponse m).length = m.Len := by
  simp [encodeCreateSessionResponse, CreateSessionResponse.Len, putLE_length,
    encodeNodeID_length, lenNodeID, encodeResponseHeader_length, encodeByteString_length,
    encodeSignatureData_length,
    encodeArray_length encodeEndpointDescription lenEndpointDescription
      encodeEndpointDescription_length,
    encodeArray_length encodeSignedSoftwareCertificate lenSignedSoftwareCertificate
      encodeSignedSoftwareCertificate_length]
  omega

theorem decodeTypeID_encode (service : Nat) (rest : Bytes)
    (h : wfNodeID (.FourByte 0 service) = true) :
    decodeTypeID service (encodeNodeID (.FourByte 0 service) ++ rest) = some ((), rest) := by
  simp [decodeTypeID, decodeNodeID_encodeNodeID _ rest h]

theorem decodeTypeID_exact (service : Nat) (b : Bytes) (u : Unit) (rest : Bytes)
    (h : decodeTypeID service b = some (u, rest)) :
    b = encodeNodeID (.FourByte 0 service) ++ rest := by
  simp only [decodeTypeID] at h
  split at h
  · rename_i t r ht
    split at h
    · rename_i heq
      subst heq
      simp only [Option.some.injEq, Prod.mk.injEq, true_and] at h
      subst h
      exact (decodeNodeID_exact _ _ _ ht).2
    · simp at h
  · simp at h

theorem decodeCreateSessionResponse_encodeCreateSessionResponse
    (m : CreateSessionResponse) (rest : Bytes) (h : wfCreateSessionResponse m = true) :
    decodeCreateSessionResponse (encodeCreateSessionResponse m ++ rest) = some (m, rest) := by
  simp only [wfCreateSessionResponse, Bool.and_eq_true, decide_eq_true_eq] at h
  obtain ⟨⟨⟨⟨⟨⟨⟨⟨⟨h1, h2⟩, h3⟩, h4⟩, h5⟩, h6⟩, h7⟩, h8⟩, h9⟩, h10⟩ := h
  have h0 : wfNodeID (.FourByte 0 ServiceTypeCreateSessionResponse) = true := by decide
  simp only [decodeCreateSessionResponse, encodeCreateSessionResponse, List.append_assoc,
    decodeTypeID_encode _ _ h0, Option.bind_eq_bind, Option.some_bind,
    decodeResponseHeader_encodeResponseHeader _ _ h1, decodeNodeID_encodeNodeID _ _ h2,
    decodeNodeID_encodeNodeID _ _ h3, getLE8_put _ _ h4,
    decodeByteString_encodeByteString _ _ h5, decodeByteString_encodeByteString _ _ h6,
    decodeArray_encodeArray encodeEndpointDescription decodeEndpointDescription
      wfEndpointDescription decodeEndpointDescription_encodeEndpointDescription _ _ h7,
    decodeArray_encodeArray encodeSignedSoftwareCertificate decodeSignedSoftwareCertificate
      wfSignedSoftwareCertificate
      decodeSignedSoftwareCertificate_encodeSignedSoftwareCertificate _ _ h8,
    decodeSignatureData_encodeSignatureData _ _ h9, getLE4_put _ _ h10]

theorem decodeCreateSessionResponse_exact (b : Bytes) (m : CreateSessionResponse)
    (rest : Bytes) (h : decodeCreateSessionResponse b = some (m, rest)) :
    wfCreateSessionResponse m = true ∧ b = encodeCreateSessionResponse m ++ rest := by
  simp only [decodeCreateSessionResponse, Option.bind_eq_bind, Option.bind_eq_some,
    Prod.exists, Option.some.injEq, Prod.mk.injEq] at h
  obtain ⟨u, r0, h0, a1, r1, h1, a2, r2, h2, a3, r3, h3, a4, r4, h4, a5, r5, h5, a6, r6, h6,
    a7, r7, h7, a8, r8, h8, a9, r9, h9, a10, r10, h10, rfl, rfl⟩ := h
  have e0 := decodeTypeID_exact _ _ _ _ h0
  obtain ⟨w1, e1⟩ := decodeResponseHeader_exact _ _ _ h1
  obtain ⟨w2, e2⟩ := decodeNodeID_exact _ _ _ h2
  obtain ⟨w3, e3⟩ := decodeNodeID_exact _ _ _ h3
  obtain ⟨w4, e4⟩ := getLE8_exact _ _ _ h4
  obtain ⟨w5, e5⟩ := decodeByteString_exact _ _ _ h5
  obtain ⟨w6, e6⟩ := decodeByteString_exact _ _ _ h6
  obtain ⟨w7, e7⟩ :=
    decodeArray_exact encodeEndpointDescription decodeEndpointDescription
      wfEndpointDescription decodeEndpointDescription_exact _ _ _ h7
  obtain ⟨w8, e8⟩ :=
    decodeArray_exact encodeSignedSoftwareCertificate decodeSignedSoftwareCertificate
      wfSignedSoftwareCertificate decodeSignedSoftwareCertificate_exact _ _ _ h8
  obtain ⟨w9, e9⟩ := decodeSignatureData_exact _ _ _ h9
  obtain ⟨w10, e10⟩ := getLE4_exact _ _ _ h10
  exact ⟨by simp [wfCreateSessionResponse, w1, w2, w3, w4, w5, w6, w7, w8, w9, w10],
    by simp [encodeCreateSessionResponse, e0, e1, e2, e3, e4, e5, e6, e7, e8, e9, e10]⟩

/-! ## The case of the test -/

/-- The test `TestSerializeCreateSessionResponse`: the model writes the structured value of
the test as the bytes the test expects. -/
theorem encode_caseStructured : encodeCreateSessionResponse caseStructured = caseSerialized := by
  decide

/-- The test `TestDecodeCreateSessionResponse`: the model reads the bytes of the test as the
structured value, with nothing left over. -/
theorem decode_caseSerialized :
    decodeCreateSessionResponse caseSerialized = some (caseStructured, []) := by
  decide

theorem wf_caseStructured : wfCreateSessionResponse caseStructured = true := by
  decide

theorem caseSerialized_length : caseSerialized.length = 626 := by
  decide

/-- A nanosecond within a tick does not reach the wire: the case of the test with the
header time one nanosecond later has the same bytes. -/
theorem encode_caseStructuredAt_subtick :
    encodeCreateSessionResponse (caseStructuredAt (timeDate 2018 8 10 23 0 0 1))
      = caseSerialized := by
  decide

theorem wf_caseWithDiagnostics : wfCreateSessionResponse caseWithDiagnostics = true := by
  decide

/-- The part `x` of `pre ++ x ++ post` is what stands at offset `pre.length`. -/
theorem drop_take_append (pre x post : Bytes) (n k : Nat) (hn : pre.length = n)
    (hk : x.length = k) : ((pre ++ (x ++ post)).drop n).take k = x := by
  subst hn hk
  rw [List.drop_left, List.take_left]

/-- A mask byte is read and written as it is, also with bits or values that have no
meaning: a LocalizedText with the mask 06, a DiagnosticInfo with the mask 80 and an
ExtensionObject with the mask 07 are read without error and written back byte for byte. -/
theorem undefined_mask_values_are_kept :
    decodeLocalizedText [0x06, 0x01, 0x00, 0x00, 0x00, 0x61]
      = some ({ EncodingMask := 6, Locale := none, Text := some (some [0x61]) }, []) ∧
    encodeLocalizedText { EncodingMask := 6, Locale := none, Text := some (some [0x61]) }
      = [0x06, 0x01, 0x00, 0x00, 0x00, 0x61] ∧
    (decodeDiagnosticInfo [0x80]).map (fun p => (encodeDiagnosticInfo p.1, p.2))
      = some ([0x80], []) ∧
    (decodeExtensionObject [0x00, 0x09, 0x07]).map (fun p => (encodeExtensionObject p.1, p.2))
      = some ([0x00, 0x09, 0x07], []) := by
  decide

/-! ## Claims on the CreateSessionResponse codec -/

/-- C11, as the claim states it, fails: the CreateSessionResponse of the test with the header
timestamp 2018-08-10T23:00:00.000000001Z serializes to the bytes of the test, and decoding
them gives the message with the timestamp 2018-08-10T23:00:00Z, which is another message. -/
theorem roundtrip_fails_off_tick :
    (caseStructuredAt (timeDate 2018 8 10 23 0 0 1)).Serialize = .ok caseSerialized ∧
    DecodeCreateSessionResponse caseSerialized = some caseStructured ∧
    DecodeCreateSessionResponse caseSerialized
      ≠ some (caseStructuredAt (timeDate 2018 8 10 23 0 0 1)) := by
  refine ⟨?_, ?_, ?_⟩
  · simp only [CreateSessionResponse.Serialize, encode_caseStructuredAt_subtick]
  · simp only [DecodeCreateSessionResponse, decode_caseSerialized]
  · simp only [DecodeCreateSessionResponse, decode_caseSerialized]
    decide

/-- C11, amended: for every CreateSessionResponse `m` whose fields are values of their wire
types (integers within their widths, strings of UTF-8 text, lengths and counts that fit an
`int32`, masks that agree with the fields that are there) and whose header timestamp is in
the representable range, `Serialize` succeeds and `DecodeCreateSessionResponse` of its bytes
succeeds and gives `m`; and for every byte string `b` that decodes with nothing left over,
`Serialize` of the decoded message gives `b` byte for byte. -/
theorem createSessionResponse_roundtrip (m : CreateSessionResponse)
    (hm : wfCreateSessionResponse m = true) (b : Bytes) (hb : WellFormed b) :
    (∃ bytes, m.Serialize = .ok bytes ∧ DecodeCreateSessionResponse bytes = some m) ∧
    (∃ d, DecodeCreateSessionResponse b = some d ∧ wfCreateSessionResponse d = true ∧
      d.Serialize = .ok b) := by
  constructor
  · refine ⟨encodeCreateSessionResponse m, rfl, ?_⟩
    have h := decodeCreateSessionResponse_encodeCreateSessionResponse m [] hm
    rw [List.append_nil] at h
    simp only [DecodeCreateSessionResponse, h]
  · obtain ⟨d, hd⟩ := hb
    obtain ⟨hw, he⟩ := decodeCreateSessionResponse_exact b d [] hd
    rw [List.append_nil] at he
    refine ⟨d, ?_, hw, ?_⟩
    · simp only [DecodeCreateSessionResponse, hd]
    · simp only [CreateSessionResponse.Serialize, ← he]

/-- C11, at the case of the test and at a message that carries diagnostics: the structured
value of the test round-trips through its bytes and the bytes of the test round-trip through
the decoded message; the message with a nested DiagnosticInfo, a string table and an
additional header with a body round-trips as well. -/
theorem createSessionResponse_roundtrip_witness :
    ((∃ bytes, caseStructured.Serialize = .ok bytes ∧
        DecodeCreateSessionResponse bytes = some caseStructured) ∧
      (∃ d, DecodeCreateSessionResponse caseSerialized = some d ∧
        wfCreateSessionResponse d = true ∧ d.Serialize = .ok caseSerialized)) ∧
    (∃ bytes, caseWithDiagnostics.Serialize = .ok bytes ∧
      DecodeCreateSessionResponse bytes = some caseWithDiagnostics) :=
  ⟨createSessionResponse_roundtrip caseStructured wf_caseStructured caseSerialized
      ⟨caseStructured, decode_caseSerialized⟩,
    (createSessionResponse_roundtrip caseWithDiagnostics wf_caseWithDiagnostics caseSerialized
      ⟨caseStructured, decode_caseSerialized⟩).1⟩

/-- C12: for every CreateSessionResponse `m`, when `Serialize` returns the bytes `b`,
`m.Len()` is the number of bytes of `b`. -/
theorem createSessionResponse_len_agrees (m : CreateSessionResponse) (b : Bytes)
    (h : m.Serialize = .ok b) : m.Len = b.length := by
  simp only [CreateSessionResponse.Serialize, Except.ok.injEq] at h
  rw [← h, encodeCreateSessionResponse_length]

/-- C12, at the case of the test and at a message that carries diagnostics: `Len()` of the
structured value of the test is 626, the length of the bytes of the test
(`TestCreateSessionResponseLen`), and `Len()` of the message with a nested DiagnosticInfo is
the length of its serialization, 663. -/
theorem createSessionResponse_len_agrees_witness :
    caseStructured.Serialize = .ok caseSerialized ∧
    caseStructured.Len = caseSerialized.length ∧
    caseStructured.Len = 626 ∧
    caseWithDiagnostics.Len = (encodeCreateSessionResponse caseWithDiagnostics).length ∧
    caseWithDiagnostics.Len = 663 :=
  have h : caseStructured.Serialize = .ok caseSerialized := by
    simp only [CreateSessionResponse.Serialize, encode_caseStructured]
  ⟨h, createSessionResponse_len_agrees caseStructured caseSerialized h,
    (createSessionResponse_len_agrees caseStructured caseSerialized h).trans
      caseSerialized_length,
    createSessionResponse_len_agrees caseWithDiagnostics _ rfl, by decide⟩

/-- C13, as the claim states it, fails: the NodeId `NewNumericNodeID(0, 1)`, namespace 0 and
identifier below 256, is written in the Numeric variant, the seven bytes
`02 00 00 01 00 00 00`, not as the two bytes `00 01` of the TwoByte variant; these are the
bytes 28..34 of the serialized case of the test, its SessionID. -/
theorem numeric_nodeID_is_not_minimized :
    encodeNodeID (NewNumericNodeID 0 1) = [0x02, 0x00, 0x00, 0x01, 0x00, 0x00, 0x00] ∧
    encodeNodeID (NewNumericNodeID 0 1) ≠ [0x00, 0x01] ∧
    caseStructured.SessionID = NewNumericNodeID 0 1 ∧
    (caseSerialized.drop 28).take 7 = [0x02, 0x00, 0x00, 0x01, 0x00, 0x00, 0x00] := by
  decide

/-- C13, amended: a NodeId is written in the variant it was built with. A TwoByte NodeId is
`00 id`, a FourByte NodeId is `01 ns id` with a two-byte identifier, and a NodeId built by
`NewNumericNodeID(ns, id)` is always the seven bytes of the Numeric variant, `02`, the
two-byte namespace and the four-byte identifier, whatever `ns` and `id` are; the SessionID
of the case of the test is written so. -/
theorem nodeID_written_in_its_variant (ns id : Nat) :
    encodeNodeID (.TwoByte id) = [0x00, Fin.ofNat id] ∧
    encodeNodeID (.FourByte ns id) = 0x01 :: (putLE 1 ns ++ putLE 2 id) ∧
    encodeNodeID (NewNumericNodeID ns id) = 0x02 :: (putLE 2 ns ++ putLE 4 id) ∧
    (encodeNodeID (NewNumericNodeID ns id)).length = 7 ∧
    (encodeNodeID (NewNumericNodeID ns id)).head? = some 0x02 ∧
    (caseSerialized.drop 28).take 7 = encodeNodeID (NewNumericNodeID 0 1) := by
  refine ⟨rfl, rfl, rfl, ?_, rfl, by decide⟩
  simp [NewNumericNodeID, encodeNodeID, putLE_length]

/-- C14, as the claim states it, fails: the EndpointDescription of the test, built with the
ServerCertificate `[]byte{}`, is serialized with the certificate `FF FF FF FF`, byte for
byte like the endpoint built with the nil certificate. -/
theorem empty_certificate_is_written_as_null :
    encodeByteString (caseEndpoint (some [])).ServerCertificate = [0xff, 0xff, 0xff, 0xff] ∧
    encodeByteString (caseEndpoint (some [])).ServerCertificate ≠ [0x00, 0x00, 0x00, 0x00] ∧
    encodeEndpointDescription (caseEndpoint (some []))
      = encodeEndpointDescription (caseEndpoint none) := by
  decide

/-- C14, amended: the null byte string or string is written as the length `FF FF FF FF`, a
non-null one of length zero as `00 00 00 00`, and the encoding of the null one differs from
the encoding of every non-null one; a byte slice without bytes handed to a constructor is the
null byte string, so the ServerCertificate `[]byte{}` of the endpoints of the test and the
nil ServerNonce are both written as `FF FF FF FF`. -/
theorem null_and_empty_byte_strings (v : Bytes) :
    encodeByteString none = [0xff, 0xff, 0xff, 0xff] ∧
    encodeByteString (some []) = [0x00, 0x00, 0x00, 0x00] ∧
    encodeString none = [0xff, 0xff, 0xff, 0xff] ∧
    encodeString (some []) = [0x00, 0x00, 0x00, 0x00] ∧
    encodeByteString none ≠ encodeByteString (some v) ∧
    encodeString none ≠ encodeString (some v) ∧
    NewByteString (some []) = none ∧
    NewByteString none = none ∧
    encodeByteString (caseEndpoint (some [])).ServerCertificate = [0xff, 0xff, 0xff, 0xff] ∧
    encodeByteString caseStructured.ServerNonce = [0xff, 0xff, 0xff, 0xff] := by
  have hne : encodeByteString none ≠ encodeByteString (some v) := by
    intro h
    have hl := congrArg List.length h
    simp only [encodeByteString, List.length_append, putLE_length] at hl
    have hv : v = [] := List.eq_nil_of_length_eq_zero (by omega)
    subst hv
    revert h
    decide
  exact ⟨by decide, by decide, by decide, by decide, hne, hne, rfl, rfl, by decide, by decide⟩

/-- C15: for every CreateSessionResponse `m`, `m.ServiceType()` is
`ServiceTypeCreateSessionResponse`, 464, whose four-byte NodeId is `01 00 D0 01`, and
`m.Serialize()` is these four bytes, then the header fields Timestamp (bytes 4..11),
RequestHandle (12..15), ServiceResult (16..19), ServiceDiagnostics, StringTable and
AdditionalHeader in that order, then the body fields; a reader that starts at byte 4 gets the
header back and stands at the body. For the case of the test the first 28 bytes are the
TypeId and the header of the test, ServiceDiagnostics being its byte 20, StringTable its
bytes 21..24 and AdditionalHeader its bytes 25..27. -/
theorem createSessionResponse_typeID_and_header (m : CreateSessionResponse) :
    m.ServiceType = 464 ∧
    m.ServiceType = ServiceTypeCreateSessionResponse ∧
    encodeNodeID (.FourByte 0 m.ServiceType) = [0x01, 0x00, 0xd0, 0x01] ∧
    decodeNodeID [0x01, 0x00, 0xd0, 0x01] = some (.FourByte 0 464, []) ∧
    (∃ b body, m.Serialize = .ok b ∧
      b = [0x01, 0x00, 0xd0, 0x01] ++
        (encodeTimestamp m.ResponseHeader.Timestamp ++
          (putLE 4 m.ResponseHeader.RequestHandle ++
            (putLE 4 m.ResponseHeader.ServiceResult ++
              (encodeDiagnosticInfo m.ResponseHeader.ServiceDiagnostics ++
                (encodeArray encodeString m.ResponseHeader.StringTable ++
                  (encodeExtensionObject m.ResponseHeader.AdditionalHeader ++ body)))))) ∧
      body = encodeNodeID m.SessionID ++ encodeNodeID m.AuthenticationToken ++
        putLE 8 m.RevisedSessionTimeout ++ encodeByteString m.ServerNonce ++
        encodeByteString m.ServerCertificate ++
        encodeArray encodeEndpointDescription m.ServerEndpoints ++
        encodeArray encodeSignedSoftwareCertificate m.ServerSoftwareCertificates ++
        encodeSignatureData m.ServerSignature ++ putLE 4 m.MaxRequestMessageSize ∧
      b.take 4 = [0x01, 0x00, 0xd0, 0x01] ∧
      (b.drop 4).take 8 = encodeTimestamp m.ResponseHeader.Timestamp ∧
      (b.drop 12).take 4 = putLE 4 m.ResponseHeader.RequestHandle ∧
      (b.drop 16).take 4 = putLE 4 m.ResponseHeader.ServiceResult ∧
      (b.drop 20).take (lenDiagnosticInfo m.ResponseHeader.ServiceDiagnostics)
        = encodeDiagnosticInfo m.ResponseHeader.ServiceDiagnostics ∧
      (b.drop (20 + lenDiagnosticInfo m.ResponseHeader.ServiceDiagnostics)).take
          (lenArray lenByteString m.ResponseHeader.StringTable)
        = encodeArray encodeString m.ResponseHeader.StringTable ∧
      (b.drop (20 + lenDiagnosticInfo m.ResponseHeader.ServiceDiagnostics
          + lenArray lenByteString m.ResponseHeader.StringTable)).take
          (lenExtensionObject m.ResponseHeader.AdditionalHeader)
        = encodeExtensionObject m.ResponseHeader.AdditionalHeader ∧
      b.drop (4 + lenResponseHeader m.ResponseHeader) = body ∧
      (wfResponseHeader m.ResponseHeader = true →
        decodeResponseHeader (b.drop 4) = some (m.ResponseHeader, body))) ∧
    caseStructured.Serialize = .ok caseSerialized ∧
    caseSerialized.take 28 =
      [0x01, 0x00, 0xd0, 0x01,
       0x00, 0x98, 0x67, 0xdd, 0xfd, 0x30, 0xd4, 0x01,
       0x01, 0x00, 0x00, 0x00,
       0x00, 0x00, 0x00, 0x00,
       0x00,
       0x00, 0x00, 0x00, 0x00,
       0x00, 0x00, 0x00] ∧
    (caseSerialized.drop 20).take 1
      = encodeDiagnosticInfo caseStructured.ResponseHeader.ServiceDiagnostics ∧
    (caseSerialized.drop 21).take 4
      = encodeArray encodeString caseStructured.ResponseHeader.StringTable ∧
    (caseSerialized.drop 25).take 3
      = encodeExtensionObject caseStructured.ResponseHeader.AdditionalHeader := by
  have hid : encodeNodeID (.FourByte 0 ServiceTypeCreateSessionResponse)
      = [0x01, 0x00, 0xd0, 0x01] := by decide
  have hcase : caseStructured.Serialize = .ok caseSerialized := by
    simp only [CreateSessionResponse.Serialize, encode_caseStructured]
  refine ⟨rfl, rfl, hid, by decide, ?_, hcase, by decide, by decide, by decide, by decide⟩
  obtain ⟨hdr, sid, tok, tmo, nonce, cert, eps, sscs, sig, mx⟩ := m
  obtain ⟨ts, rh, sr, sd, st, ah⟩ := hdr
  refine ⟨_, _, rfl, ?_, rfl, ?_, ?_, ?_, ?_, ?_, ?_, ?_, ?_, ?_⟩
  · simp only [encodeCreateSessionResponse, encodeResponseHeader, hid, List.append_assoc]
  · simp only [encodeCreateSessionResponse, hid, List.append_assoc]
    rfl
  · simp only [encodeCreateSessionResponse, encodeResponseHeader, hid, List.append_assoc]
    exact drop_take_append [0x01, 0x00, 0xd0, 0x01] _ _ 4 8 rfl (encodeTimestamp_length ts)
  · simp only [encodeCreateSessionResponse, encodeResponseHeader, hid]
    have h := drop_take_append ([0x01, 0x00, 0xd0, 0x01] ++ encodeTimestamp ts) (putLE 4 rh)
      (putLE 4 sr ++ encodeDiagnosticInfo sd ++ encodeArray encodeString st ++
        encodeExtensionObject ah ++
        (encodeNodeID sid ++ encodeNodeID tok ++ putLE 8 tmo ++ encodeByteString nonce ++
          encodeByteString cert ++ encodeArray encodeEndpointDescription eps ++
          encodeArray encodeSignedSoftwareCertificate sscs ++ encodeSignatureData sig ++
          putLE 4 mx)) 12 4
      (by simp [encodeTimestamp_length]) (putLE_length 4 rh)
    simpa only [List.append_assoc] using h
  · simp only [encodeCreateSessionResponse, encodeResponseHeader, hid]
    have h := drop_take_append ([0x01, 0x00, 0xd0, 0x01] ++ encodeTimestamp ts ++ putLE 4 rh)
      (putLE 4 sr)
      (encodeDiagnosticInfo sd ++ encodeArray encodeString st ++
        encodeExtensionObject ah ++
        (encodeNodeID sid ++ encodeNodeID tok ++ putLE 8 tmo ++ encodeByteString nonce ++
          encodeByteString cert ++ encodeArray encodeEndpointDescription eps ++
          encodeArray encodeSignedSoftwareCertificate sscs ++ encodeSignatureData sig ++
          putLE 4 mx)) 16 4
      (by simp [encodeTimestamp_length, putLE_length]) (putLE_length 4 sr)
    simpa only [List.append_assoc] using h
  · simp only [encodeCreateSessionResponse, encodeResponseHeader, hid]
    have h := drop_take_append
      ([0x01, 0x00, 0xd0, 0x01] ++ encodeTimestamp ts ++ putLE 4 rh ++ putLE 4 sr)
      (encodeDiagnosticInfo sd)
      (encodeArray encodeString st ++ encodeExtensionObject ah ++
        (encodeNodeID sid ++ encodeNodeID tok ++ putLE 8 tmo ++ encodeByteString nonce ++
          encodeByteString cert ++ encodeArray encodeEndpointDescription eps ++
          encodeArray encodeSignedSoftwareCertificate sscs ++ encodeSignatureData sig ++
          putLE 4 mx)) 20 (lenDiagnosticInfo sd)
      (by simp [encodeTimestamp_length, putLE_length]) (encodeDiagnosticInfo_length sd)
    simpa only [List.append_assoc] using h
  · simp only [encodeCreateSessionResponse, encodeResponseHeader, hid]
    have h := drop_take_append
      ([0x01, 0x00, 0xd0, 0x01] ++ encodeTimestamp ts ++ putLE 4 rh ++ putLE 4 sr ++
        encodeDiagnosticInfo sd)
      (encodeArray encodeString st)
      (encodeExtensionObject ah ++
        (encodeNodeID sid ++ encodeNodeID tok ++ putLE 8 tmo ++ encodeByteString nonce ++
          encodeByteString cert ++ encodeArray encodeEndpointDescription eps ++
          encodeArray encodeSignedSoftwareCertificate sscs ++ encodeSignatureData sig ++
          putLE 4 mx)) (20 + lenDiagnosticInfo sd) (lenArray lenByteString st)
      (by simp [encodeTimestamp_length, putLE_length, encodeDiagnosticInfo_length]; omega)
      (encodeArray_length encodeString lenByteString encodeString_length st)
    simpa only [List.append_assoc] using h
  · simp only [encodeCreateSessionResponse, encodeResponseHeader, hid]
    have h := drop_take_append
      ([0x01, 0x00, 0xd0, 0x01] ++ encodeTimestamp ts ++ putLE 4 rh ++ putLE 4 sr ++
        encodeDiagnosticInfo sd ++ encodeArray encodeString st)
      (encodeExtensionObject ah)
      (encodeNodeID sid ++ encodeNodeID tok ++ putLE 8 tmo ++ encodeByteString nonce ++
          encodeByteString cert ++ encodeArray encodeEndpointDescription eps ++
          encodeArray encodeSignedSoftwareCertificate sscs ++ encodeSignatureData sig ++
          putLE 4 mx)
      (20 + lenDiagnosticInfo sd + lenArray lenByteString st) (lenExtensionObject ah)
      (by simp [encodeTimestamp_length, putLE_length, encodeDiagnosticInfo_length,
        encodeArray_length encodeString lenByteString encodeString_length]; omega)
      (encodeExtensionObject_length ah)
    simpa only [List.append_assoc] using h
  · simp only [encodeCreateSessionResponse, hid]
    have hl : ([0x01, 0x00, 0xd0, 0x01] ++ encodeResponseHeader ⟨ts, rh, sr, sd, st, ah⟩).length
        = 4 + lenResponseHeader ⟨ts, rh, sr, sd, st, ah⟩ := by
      simp [encodeResponseHeader_length]
      omega
    rw [← hl]
    simp only [List.append_assoc]
    rw [← List.append_assoc, List.drop_left]
  · intro hw
    simp only [encodeCreateSessionResponse, hid, List.append_assoc]
    have hd : List.drop 4 ([0x01, 0x00, 0xd0, 0x01] ++
        (encodeResponseHeader ⟨ts, rh, sr, sd, st, ah⟩ ++
          (encodeNodeID sid ++ (encodeNodeID tok ++ (putLE 8 tmo ++ (encodeByteString nonce ++
            (encodeByteString cert ++ (encodeArray encodeEndpointDescription eps ++
              (encodeArray encodeSignedSoftwareCertificate sscs ++
                (encodeSignatureData sig ++ putLE 4 mx))))))))))
        = encodeResponseHeader ⟨ts, rh, sr, sd, st, ah⟩ ++
          (encodeNodeID sid ++ (encodeNodeID tok ++ (putLE 8 tmo ++ (encodeByteString nonce ++
            (encodeByteString cert ++ (encodeArray encodeEndpointDescription eps ++
              (encodeArray encodeSignedSoftwareCertificate sscs ++
                (encodeSignatureData sig ++ putLE 4 mx)))))))) := rfl
    rw [hd]
    exact decodeResponseHeader_encodeResponseHeader _ _ hw

/-- C15, at a message whose last three header fields differ from one another: the header of
`caseWithDiagnostics` is written as the TypeId `01 00 D0 01`, the timestamp, the request
handle 1 and the service result 80010000 (bytes 0..19), then the eighteen bytes of the
DiagnosticInfo (20..37), the fifteen bytes of the string table (38..52) and the twelve bytes
of the additional header (53..64); a reader that starts at byte 4 gets the header back and
stands at byte 65, the first byte of the SessionID. -/
theorem createSessionResponse_typeID_and_header_witness :
    caseWithDiagnostics.ServiceType = 464 ∧
    ∃ b, caseWithDiagnostics.Serialize = .ok b ∧
      b.take 20 =
        [0x01, 0x00, 0xd0, 0x01,
         0x00, 0x98, 0x67, 0xdd, 0xfd, 0x30, 0xd4, 0x01,
         0x01, 0x00, 0x00, 0x00,
         0x00, 0x00, 0x01, 0x80] ∧
      (b.drop 20).take 18 =
        [0x51, 0x07, 0x00, 0x00, 0x00, 0x04, 0x00, 0x00, 0x00, 0x69, 0x6e, 0x66, 0x6f,
         0x20, 0x00, 0x00, 0x01, 0x80] ∧
      (b.drop 38).take 15 =
        [0x02, 0x00, 0x00, 0x00, 0x01, 0x00, 0x00, 0x00, 0x61,
         0x02, 0x00, 0x00, 0x00, 0x62, 0x63] ∧
      (b.drop 53).take 12 =
        [0x01, 0x01, 0x2c, 0x01, 0x01, 0x03, 0x00, 0x00, 0x00, 0x01, 0x02, 0x03] ∧
      decodeResponseHeader (b.drop 4) = some (caseWithDiagnostics.ResponseHeader, b.drop 65) ∧
      (b.drop 65).take 7 = encodeNodeID caseWithDiagnostics.SessionID := by
  obtain ⟨h464, -, -, -, ⟨b, body, hs, -, hbody, -, -, -, -, hd, hst, hah, hdrop, hdec⟩, -⟩ :=
    createSessionResponse_typeID_and_header caseWithDiagnostics
  have hw : wfResponseHeader caseWithDiagnostics.ResponseHeader = true := by decide
  have e1 : lenDiagnosticInfo caseWithDiagnostics.ResponseHeader.ServiceDiagnostics = 18 := by
    decide
  have e2 : lenArray lenByteString caseWithDiagnostics.ResponseHeader.StringTable = 15 := by
    decide
  have e3 : lenExtensionObject caseWithDiagnostics.ResponseHeader.AdditionalHeader = 12 := by
    decide
  have e4 : lenResponseHeader caseWithDiagnostics.ResponseHeader = 61 := by decide
  rw [e1] at hd
  rw [e1, e2] at hst
  rw [e1, e2, e3] at hah
  rw [e4] at hdrop
  refine ⟨h464, b, hs, ?_, ?_, ?_, ?_, ?_, ?_⟩
  · simp only [CreateSessionResponse.Serialize, Except.ok.injEq] at hs
    subst hs
    decide
  · rw [hd]
    decide
  · rw [hst]
    decide
  · rw [hah]
    decide
  · rw [hdrop]
    exact hdec hw
  · rw [hdrop, hbody]
    decide

/-- C16, as the claim states it, fails: the time 2018-08-10T23:00:00.000000001Z is written
as the same eight bytes as 2018-08-10T23:00:00Z, and decoding them gives 23:00:00Z, not the
time that was written. -/
theorem timestamp_off_tick_not_given_back :
    encodeTimestamp (timeDate 2018 8 10 23 0 0 1)
      = [0x00, 0x98, 0x67, 0xdd, 0xfd, 0x30, 0xd4, 0x01] ∧
    decodeTimestamp (encodeTimestamp (timeDate 2018 8 10 23 0 0 1))
      = some (timeDate 2018 8 10 23 0 0 0, []) ∧
    decodeTimestamp (encodeTimestamp (timeDate 2018 8 10 23 0 0 1))
      ≠ some (timeDate 2018 8 10 23 0 0 1, []) := by
  decide

/-- C16, amended: a timestamp `t` whose tick count fits an `int64` is written as the
little-endian 64-bit count `(unixSeconds(t) + 11644473600) * 10^7 + nanoseconds(t) / 100`;
decoding the eight bytes gives `t` with its nanoseconds rounded down to a multiple of 100,
and so gives back `t` when its nanoseconds are a multiple of 100; for 2018-08-10T23:00:00Z
the bytes are `00 98 67 DD FD 30 D4 01`. -/
theorem timestamp_ticks_roundtrip (t : Time) (hns : t.nsec < 1000000000)
    (hr : inTickRange (ticks t) = true) :
    encodeTimestamp t
      = encodeInt64 ((t.sec + 11644473600) * 10000000 + ((t.nsec / 100 : Nat) : Int)) ∧
    (encodeTimestamp t).length = 8 ∧
    decodeTimestamp (encodeTimestamp t)
      = some ({ sec := t.sec, nsec := t.nsec - t.nsec % 100 }, []) ∧
    (t.nsec % 100 = 0 → decodeTimestamp (encodeTimestamp t) = some (t, [])) ∧
    encodeTimestamp (timeDate 2018 8 10 23 0 0 0)
      = [0x00, 0x98, 0x67, 0xdd, 0xfd, 0x30, 0xd4, 0x01] := by
  have henc : encodeTimestamp t = encodeInt64 (ticks t) := by
    simp only [encodeTimestamp, hr, if_true]
  have hdec : decodeTimestamp (encodeTimestamp t)
      = some ({ sec := t.sec, nsec := t.nsec - t.nsec % 100 }, []) := by
    have h := decodeInt64_encodeInt64 (ticks t) [] hr
    rw [List.append_nil] at h
    simp only [henc, decodeTimestamp, h, Option.some.injEq, Prod.mk.injEq, and_true]
    simp only [ticks, timeOfTicks, Time.mk.injEq]
    constructor <;> omega
  refine ⟨henc, encodeTimestamp_length t, hdec, ?_, by decide⟩
  intro h0
  rw [hdec, h0, Nat.sub_zero]

/-- C16, at the timestamp of the test: 2018-08-10T23:00:00Z is written as
`00 98 67 DD FD 30 D4 01` and decoding gives it back. -/
theorem timestamp_ticks_roundtrip_witness :
    encodeTimestamp (timeDate 2018 8 10 23 0 0 0)
      = [0x00, 0x98, 0x67, 0xdd, 0xfd, 0x30, 0xd4, 0x01] ∧
    decodeTimestamp (encodeTimestamp (timeDate 2018 8 10 23 0 0 0))
      = some (timeDate 2018 8 10 23 0 0 0, []) :=
  have h := timestamp_ticks_roundtrip (timeDate 2018 8 10 23 0 0 0) (by decide) (by decide)
  ⟨h.2.2.2.2, h.2.2.2.1 (by decide)⟩

/-- C18, as the claim states it, fails: the serialized case of the test has 626 bytes, not
433. -/
theorem caseSerialized_is_not_433_bytes :
    caseSerialized.length = 626 ∧ caseSerialized.length ≠ 433 := by
  decide

/-- C18, amended: the serialized form of the CreateSessionResponse of the test is the 626
bytes of the test, and its `Len()` is 626. -/
theorem caseStructured_serialized_length :
    caseStructured.Serialize = .ok caseSerialized ∧
    caseSerialized.length = 626 ∧
    caseStructured.Len = 626 := by
  refine ⟨?_, caseSerialized_length, ?_⟩
  · simp only [CreateSessionResponse.Serialize, encode_caseStructured]
  · rw [← encodeCreateSessionResponse_length, encode_caseStructured, caseSerialized_length]

end Services
